import Mathlib

/-!
# Chat sessions and counselor matching (`src/backend/routes/chat.js`)

A shallow embedding of the chat routes over the three tables they touch
(`ChatSession`, `ChatMessage`, `Counselor`).

Conventions of the embedding:

* a table is the list of its rows in storage order; a row carries the
  attributes its model file declares;
* UUIDs are natural numbers; a UUID is a non-empty string, so a non-null
  `counselorId` is always truthy;
* a `Date` is its number of milliseconds since the epoch;
* an instance `update` is Sequelize's `UPDATE ... WHERE id = <primary key>`;
* the clock, the UUID generator and validator.js's `isURL` are inputs (`Env`);
* a JS number is the rational it denotes: `Counselor.rating` (`FLOAT` column)
  holds a double, and the quotient `sum / length` of the rate route is the
  double nearest to the exact quotient (`nearestDouble`);
* requests run one after the other, except in the section on `POST /sessions`
  one database call at a time, where two handlers interleave at their `await`
  points; storage failures are not modelled, so the only `500` answers are the
  one of the message fetch, whose query includes associations that are not
  registered, and the one the counselor model's validation of `rating` can
  raise in the rate route.

The streak analysis of the mood insights (`src/backend/routes/moods.js`) is
embedded at the end of the definitions.
-/

namespace MentalSpace

/-! ## Data model (`src/backend/models`) -/

/-- `ChatSession.status`: `isIn: [['waiting', 'active', 'closed', 'escalated']]`. -/
inductive SessionStatus where
  | waiting | active | closed | escalated
deriving DecidableEq, Repr

/-- `ChatSession.priority`: `isIn: [['low', 'medium', 'high', 'emergency']]`. -/
inductive Priority where
  | low | medium | high | emergency
deriving DecidableEq, Repr

/-- `Counselor.status`: `isIn: [['available', 'busy', 'offline']]`. -/
inductive CounselorStatus where
  | available | busy | offline
deriving DecidableEq, Repr

/-- `ChatMessage.senderType`: `isIn: [['user', 'counselor']]`. -/
inductive SenderType where
  | user | counselor
deriving DecidableEq, Repr

/-- `ChatMessage.messageType`: `isIn: [['text', 'image', 'file', 'resource', 'system']]`. -/
inductive MessageType where
  | text | image | file | resource | system
deriving DecidableEq, Repr

/-- `req.userType` as set by `authMiddleware`: `decoded.type || 'user'`. -/
inductive UserType where
  | user | counselor
deriving DecidableEq, Repr

/-- A row of `ChatSession` (`models/ChatSession.js`). -/
structure ChatSession where
  id : Nat
  userId : Nat
  counselorId : Option Nat
  status : SessionStatus
  priority : Priority
  topic : Option String
  description : Option String
  startedAt : Nat
  endedAt : Option Nat
  duration : Option Int
  rating : Option Int
  feedback : Option String
  isAnonymous : Bool
  tags : List String
deriving DecidableEq, Repr

/-- A row of `ChatMessage` (`models/ChatMessage.js`). -/
structure ChatMessage where
  id : Nat
  sessionId : Nat
  senderId : Nat
  senderType : SenderType
  message : String
  messageType : MessageType
  attachmentUrl : Option String
  isRead : Bool
  sentAt : Nat
  editedAt : Option Nat
  isEdited : Bool
deriving DecidableEq, Repr

/-- A row of `Counselor` (`models/Counselor.js`). -/
structure Counselor where
  id : Nat
  email : String
  password : String
  firstName : String
  lastName : String
  licenseNumber : String
  specializations : List String
  bio : Option String
  avatar : Option String
  isOnline : Bool
  status : CounselorStatus
  rating : ℚ
  totalSessions : Int
  totalHours : Int
  languages : List String
  timezone : String
  isActive : Bool
deriving DecidableEq

/-- The payload of `io.to(room).emit(event, ...)` in the send route. -/
structure RelayEvent where
  room : String
  event : String
  senderId : Nat
  message : String
  messageType : MessageType
  timestamp : Nat
deriving DecidableEq, Repr

/-- The three tables and the events pushed to the realtime relay so far. -/
structure Store where
  sessions : List ChatSession
  messages : List ChatMessage
  counselors : List Counselor
  emitted : List RelayEvent
deriving DecidableEq

/-- What a route takes from outside the store. -/
structure Env where
  now : Nat
  newSessionId : Nat
  newMessageId : Nat
  isURL : String → Bool

/-- The authenticated caller: `req.userId` and `req.userType`. -/
structure Caller where
  userId : Nat
  userType : UserType
deriving DecidableEq, Repr

/-! ## Requests and responses -/

/-- Body of `POST /sessions`. -/
structure CreateReq where
  topic : Option String
  description : Option String
  priority : Option Priority
  isAnonymous : Option Bool
deriving DecidableEq, Repr

/-- Query of `GET /sessions/:id/messages`. -/
structure MessagesQuery where
  limit : Option Int
  before : Option Nat
deriving DecidableEq, Repr

/-- Body of `POST /sessions/:id/messages`. -/
structure SendReq where
  message : String
  messageType : Option MessageType
  attachmentUrl : Option String
deriving DecidableEq, Repr

/-- Body of `PUT /sessions/:id/rate`. -/
structure RateReq where
  rating : Int
  feedback : Option String
deriving DecidableEq, Repr

/-- The answers of the chat routes. -/
inductive Response where
  /-- `res.status(400).json({ errors: errors.array() })`. -/
  | validationErrors
  /-- `res.status(code).json({ error })`. -/
  | error (code : Nat) (error : String)
  /-- `res.status(400).json({ error, sessionId })` of `POST /sessions`. -/
  | existingSession (error : String) (sessionId : Nat)
  /-- `res.status(201).json({ message, session, counselorAssigned })`. -/
  | sessionCreated (session : ChatSession) (counselorAssigned : Bool)
  /-- `res.json({ messages, session: { id, status, counselorId } })`. -/
  | messages (messages : List ChatMessage) (id : Nat) (status : SessionStatus)
      (counselorId : Option Nat)
  /-- `res.status(201).json({ message, chatMessage })`. -/
  | messageSent (chatMessage : ChatMessage)
  /-- `res.json({ message })`. -/
  | ok (message : String)
deriving DecidableEq

/-- The HTTP status code of an answer. -/
def Response.status : Response → Nat
  | .validationErrors => 400
  | .error code _ => code
  | .existingSession _ _ => 400
  | .sessionCreated _ _ => 201
  | .messages _ _ _ _ => 200
  | .messageSent _ => 201
  | .ok _ => 200

/-! ## Queries shared by the routes -/

/-- `ChatSession.findOne({ where: { id, userId } })`. -/
def findSession (σ : Store) (id userId : Nat) : Option ChatSession :=
  σ.sessions.find? (fun s => s.id == id && s.userId == userId)

/-- `ChatSession.findOne({ where: { userId, status: ['waiting', 'active'] } })`. -/
def findOpenSession (σ : Store) (userId : Nat) : Option ChatSession :=
  σ.sessions.find? (fun s =>
    s.userId == userId && (s.status == .waiting || s.status == .active))

/-- The `where` clause `{ isOnline: true, status: 'available', isActive: true }`. -/
def Counselor.isEligible (c : Counselor) : Bool :=
  c.isOnline == true && c.status == .available && c.isActive == true

/-- `Counselor.findAll({ where: { isOnline: true, status: 'available', isActive: true } })`
of `GET /counselors/available`. -/
def availableCounselors (σ : Store) : List Counselor :=
  σ.counselors.filter Counselor.isEligible

/-- `Counselor.findOne({ where: ..., order: [['totalSessions', 'ASC']] })`: the
first row of the eligible rows sorted by `totalSessions`. The query names no
second key, so the database is free in the order of rows with equal counts;
the embedding takes them in storage order (a stable sort). -/
def findAvailableCounselor (σ : Store) : Option Counselor :=
  ((σ.counselors.filter Counselor.isEligible).insertionSort
    (fun a b => a.totalSessions ≤ b.totalSessions)).head?

/-- `Counselor.findByPk(id)`. -/
def findCounselorByPk (σ : Store) (id : Nat) : Option Counselor :=
  σ.counselors.find? (fun c => c.id == id)

/-- An `UPDATE Counselors SET ... WHERE id = <id>`. -/
def updateCounselors (f : Counselor → Counselor) (id : Nat) (cs : List Counselor) :
    List Counselor :=
  cs.map (fun c => if c.id = id then f c else c)

/-- An `UPDATE ChatSessions SET ... WHERE id = <id>`. -/
def updateSessions (f : ChatSession → ChatSession) (id : Nat) (ss : List ChatSession) :
    List ChatSession :=
  ss.map (fun s => if s.id = id then f s else s)

/-- The length that validator.js's `isLength` compares with `min` and `max`:
`str.length - presentationSequences.length - surrogatePairs.length`, the
number of characters of the string with the variation selectors U+FE0E and
U+FE0F left out. -/
def isLengthCount (str : String) : Nat :=
  (str.toList.filter (fun c => c.toNat ≠ 0xFE0E ∧ c.toNat ≠ 0xFE0F)).length

/-! ## `POST /sessions` -/

/-- The validators of `POST /sessions`: `topic` of length at most 100,
`description` at most 1000 (`priority` and `isAnonymous` are well-typed). -/
def validCreate (req : CreateReq) : Bool :=
  (match req.topic with
    | none => true
    | some t => decide (isLengthCount t ≤ 100)) &&
  (match req.description with
    | none => true
    | some d => decide (isLengthCount d ≤ 1000))

/-- The text of the welcome message. -/
def welcomeText : String := "Hello! I'm here to help you today. How are you feeling?"

/-- The row `ChatSession.create` inserts in `POST /sessions`. -/
def newSession (env : Env) (userId : Nat) (counselorId : Option Nat) (req : CreateReq) :
    ChatSession :=
  { id := env.newSessionId
    userId := userId
    counselorId := counselorId
    status := if counselorId.isSome then .active else .waiting
    priority := req.priority.getD .medium
    topic := req.topic
    description := req.description
    startedAt := env.now
    endedAt := none
    duration := none
    rating := none
    feedback := none
    isAnonymous := req.isAnonymous.getD false
    tags := [] }

/-- The row `ChatMessage.create` inserts for the welcome message. -/
def welcomeMessage (env : Env) (counselorId : Nat) : ChatMessage :=
  { id := env.newMessageId
    sessionId := env.newSessionId
    senderId := counselorId
    senderType := .counselor
    message := welcomeText
    messageType := .text
    attachmentUrl := none
    isRead := false
    sentAt := env.now
    editedAt := none
    isEdited := false }

/-- The handler of `router.post('/sessions')`. -/
def createSession (env : Env) (caller : Caller) (req : CreateReq) (σ : Store) :
    Response × Store :=
  if validCreate req = false then (.validationErrors, σ) else
  match findOpenSession σ caller.userId with
  | some existingSession =>
      (.existingSession "You already have an active chat session" existingSession.id, σ)
  | none =>
    match findAvailableCounselor σ with
    | some availableCounselor =>
        let counselorId := availableCounselor.id
        let counselors :=
          updateCounselors (fun c => { c with status := .busy }) availableCounselor.id
            σ.counselors
        let session := newSession env caller.userId (some counselorId) req
        (.sessionCreated session true,
          { σ with
            sessions := σ.sessions ++ [session]
            messages := σ.messages ++ [welcomeMessage env counselorId]
            counselors := counselors })
    | none =>
        let session := newSession env caller.userId none req
        (.sessionCreated session false, { σ with sessions := σ.sessions ++ [session] })

/-! ## `GET /sessions/:id/messages` -/

/-- The validators of the message fetch: `limit`, when given, is an integer in
`1..100` (`before` is a well-formed timestamp by its type). -/
def validMessagesQuery (q : MessagesQuery) : Bool :=
  match q.limit with
  | none => true
  | some n => decide (1 ≤ n) && decide (n ≤ 100)

/-- The `where` clause of the fetch: `{ sessionId: id }`, with
`sentAt: { [Op.lt]: before }` when a cursor is given. -/
def matchesFetch (id : Nat) (before : Option Nat) (m : ChatMessage) : Bool :=
  m.sessionId == id &&
  (match before with
    | none => true
    | some b => decide (m.sentAt < b))

/-- The rows `ChatMessage.findAll({ where, order: [['sentAt', 'DESC']], limit })`
selects. -/
def fetchPage (σ : Store) (id : Nat) (before : Option Nat) (limit : Nat) :
    List ChatMessage :=
  (((σ.messages.filter (matchesFetch id before)).insertionSort
    (fun a b => b.sentAt ≤ a.sentAt)).take limit)

/-- `ChatMessage.update({ isRead: true }, { where: { sessionId: id,
senderId: { [Op.ne]: userId }, isRead: false } })`. -/
def markRead (id userId : Nat) (ms : List ChatMessage) : List ChatMessage :=
  ms.map (fun m =>
    if m.sessionId = id ∧ m.senderId ≠ userId ∧ m.isRead = false then
      { m with isRead := true }
    else m)

/-- The associations that `models/index.js` registers, each named by its
source model and its alias. The loop under `// Define associations` calls
`models[modelName].associate(models)` when `models[modelName].associate`
exists; every entry of `models` is what the `init` of its model file returns,
the model built by `sequelize.define`, while `associate` is a static method of
the class that wraps `init`. The test fails for every model and nothing is
registered. -/
def registeredAssociations : List (String × String) := []

/-- `ChatMessage.findAll({ where, include: [{ model: User, as: 'sender' },
{ model: Counselor, as: 'counselor' }], order: [['sentAt', 'DESC']], limit })`.
Sequelize throws on an `include` whose association is not registered on
`ChatMessage`, before it queries: `none`. -/
def findAllMessages (σ : Store) (id : Nat) (before : Option Nat) (limit : Nat) :
    Option (List ChatMessage) :=
  if ("ChatMessage", "sender") ∈ registeredAssociations ∧
      ("ChatMessage", "counselor") ∈ registeredAssociations then
    some (fetchPage σ id before limit)
  else none

/-- The handler of `router.get('/sessions/:id/messages')`. When `findAll`
throws, the `catch` block answers 500 and the update that marks messages as
read has not run. -/
def getMessages (caller : Caller) (id : Nat) (q : MessagesQuery) (σ : Store) :
    Response × Store :=
  if validMessagesQuery q = false then (.validationErrors, σ) else
  match findSession σ id caller.userId with
  | none => (.error 404 "Session not found", σ)
  | some session =>
      match findAllMessages σ id q.before (q.limit.getD 50).toNat with
      | none => (.error 500 "Internal server error", σ)
      | some messages =>
          (.messages messages.reverse session.id session.status session.counselorId,
            { σ with messages := markRead id caller.userId σ.messages })

/-! ## `POST /sessions/:id/messages` -/

/-- The validators of the send route: `message` of length 1 to 2000,
`messageType` one of text, image, file, `attachmentUrl` a URL. -/
def validSend (env : Env) (req : SendReq) : Bool :=
  decide (1 ≤ isLengthCount req.message) && decide (isLengthCount req.message ≤ 2000) &&
  (match req.messageType with
    | none => true
    | some t => t == .text || t == .image || t == .file) &&
  (match req.attachmentUrl with
    | none => true
    | some u => env.isURL u)

/-- The row `ChatMessage.create` inserts in the send route. -/
def newMessage (env : Env) (userId id : Nat) (req : SendReq) : ChatMessage :=
  { id := env.newMessageId
    sessionId := id
    senderId := userId
    senderType := .user
    message := req.message
    messageType := req.messageType.getD .text
    attachmentUrl := req.attachmentUrl
    isRead := false
    sentAt := env.now
    editedAt := none
    isEdited := false }

/-- The handler of `router.post('/sessions/:id/messages')`. Its
`session.update({ lastActivityAt: new Date() })` names an attribute that
`models/ChatSession.js` does not declare: Sequelize sets no attribute and the
session row stays as it is. -/
def sendMessage (env : Env) (caller : Caller) (id : Nat) (req : SendReq) (σ : Store) :
    Response × Store :=
  if validSend env req = false then (.validationErrors, σ) else
  match findSession σ id caller.userId with
  | none => (.error 404 "Session not found", σ)
  | some session =>
      if session.status ≠ .active then
        (.error 400 "Cannot send messages in inactive session", σ)
      else
        let chatMessage := newMessage env caller.userId id req
        (.messageSent chatMessage,
          { σ with
            messages := σ.messages ++ [chatMessage]
            emitted := σ.emitted ++
              [{ room := "chat:" ++ toString id
                 event := "chat:message"
                 senderId := caller.userId
                 message := req.message
                 messageType := req.messageType.getD .text
                 timestamp := chatMessage.sentAt }] })

/-! ## `PUT /sessions/:id/rate` -/

/-- The validators of the rate route: `rating` an integer in `1..5`,
`feedback` of length at most 1000. -/
def validRate (req : RateReq) : Bool :=
  decide (1 ≤ req.rating) && decide (req.rating ≤ 5) &&
  (match req.feedback with
    | none => true
    | some f => decide (isLengthCount f ≤ 1000))

/-- `session.update({ rating, feedback })` on one row: an `undefined`
feedback is left out of the update. -/
def setRating (req : RateReq) (s : ChatSession) : ChatSession :=
  { s with
    rating := some req.rating
    feedback := match req.feedback with
      | some f => some f
      | none => s.feedback }

/-- The ratings of `ChatSession.findAll({ where: { counselorId,
rating: { [Op.not]: null } }, attributes: ['rating'] })`. -/
def allRatings (ss : List ChatSession) (counselorId : Nat) : List Int :=
  ss.filterMap (fun s => if s.counselorId = some counselorId then s.rating else none)

/-- The integer nearest to `x`, a half going to the even neighbour. -/
def roundHalfEven (x : ℚ) : Int :=
  if x - ⌊x⌋ < 1 / 2 then ⌊x⌋
  else if 1 / 2 < x - ⌊x⌋ then ⌊x⌋ + 1
  else if ⌊x⌋ % 2 = 0 then ⌊x⌋ else ⌊x⌋ + 1

/-- The IEEE 754 double nearest to `x`, ties to even, as a rational: what a JS
arithmetic operation returns when its exact result is `x`. A double has 53
significant bits, so in the binade `2 ^ e ≤ |x| < 2 ^ (e + 1)` the doubles are
the multiples of `2 ^ (e - 52)`; below `2 ^ (-1022)` they are the multiples of
`2 ^ (-1074)`. The overflow to `Infinity`, from `2 ^ 1024 - 2 ^ 970` on, is
not modelled. -/
def nearestDouble (x : ℚ) : ℚ :=
  let e := max (Int.log 2 |x|) (-1022)
  let ulp : ℚ := 2 ^ (e - 52)
  roundHalfEven (x / ulp) * ulp

/-- `allRatings.reduce((sum, session) => sum + session.rating, 0) / allRatings.length`.
The ratings are integers (`INTEGER` column) and JS adds integers exactly up to
`2 ^ 53`: the sum is taken in `ℤ`. The quotient is the double nearest to the
exact quotient. For an empty list JS computes `0 / 0`, which is `NaN`, where
this definition gives 0; the rate route divides a list that holds the rating
it has just written. -/
def averageRating (ratings : List Int) : ℚ :=
  nearestDouble
    (((ratings.foldl (fun sum r => sum + r) 0 : Int) : ℚ) / (ratings.length : ℚ))

/-- The handler of `router.put('/sessions/:id/rate')`. The counselor model
validates `rating` (`min: 0, max: 5`) on `counselor.update`; a mean outside
that range raises and the `catch` block answers 500 after the session row
has been written. -/
def rateSession (caller : Caller) (id : Nat) (req : RateReq) (σ : Store) :
    Response × Store :=
  if validRate req = false then (.validationErrors, σ) else
  match findSession σ id caller.userId with
  | none => (.error 404 "Session not found", σ)
  | some session =>
      if session.status ≠ .closed then
        (.error 400 "Can only rate closed sessions", σ)
      else
        let sessions := updateSessions (setRating req) session.id σ.sessions
        match session.counselorId with
        | none => (.ok "Session rated successfully", { σ with sessions := sessions })
        | some counselorId =>
          match findCounselorByPk σ counselorId with
          | none => (.ok "Session rated successfully", { σ with sessions := sessions })
          | some counselor =>
              let average := averageRating (allRatings sessions counselorId)
              if 0 ≤ average ∧ average ≤ 5 then
                (.ok "Session rated successfully",
                  { σ with
                    sessions := sessions
                    counselors :=
                      updateCounselors (fun c => { c with rating := average })
                        counselor.id σ.counselors })
              else
                (.error 500 "Internal server error", { σ with sessions := sessions })

/-! ## `PUT /sessions/:id/end` -/

/-- `Math.round((endedAt - startedAt) / 60000)`: the nearest integer, a half
rounded up. -/
def durationMinutes (endedAt startedAt : Nat) : Int :=
  (((endedAt : Int) - (startedAt : Int)) + 30000) / 60000

/-- The handler of `router.put('/sessions/:id/end')`. -/
def endSession (env : Env) (caller : Caller) (id : Nat) (σ : Store) : Response × Store :=
  match findSession σ id caller.userId with
  | none => (.error 404 "Session not found", σ)
  | some session =>
      if session.status = .closed then
        (.error 400 "Session already closed", σ)
      else
        let endedAt := env.now
        let duration := durationMinutes endedAt session.startedAt
        let sessions :=
          updateSessions
            (fun s => { s with status := .closed, endedAt := some endedAt,
                               duration := some duration })
            session.id σ.sessions
        match session.counselorId with
        | some counselorId =>
            (.ok "Session ended successfully",
              { σ with
                sessions := sessions
                counselors :=
                  updateCounselors (fun c => { c with status := .available })
                    counselorId σ.counselors })
        | none => (.ok "Session ended successfully", { σ with sessions := sessions })

/-! ## The step relation -/

/-- A request to one of the five routes on chat sessions and their messages. -/
inductive Op where
  | createSession (req : CreateReq)
  | getMessages (id : Nat) (q : MessagesQuery)
  | sendMessage (id : Nat) (req : SendReq)
  | rateSession (id : Nat) (req : RateReq)
  | endSession (id : Nat)

/-- One request served to completion. -/
def step (env : Env) (caller : Caller) : Op → Store → Response × Store
  | .createSession req, σ => createSession env caller req σ
  | .getMessages id q, σ => getMessages caller id q σ
  | .sendMessage id req, σ => sendMessage env caller id req σ
  | .rateSession id req, σ => rateSession caller id req σ
  | .endSession id, σ => endSession env caller id σ

/-- The stores reachable from `σ₀` by serving requests one after the other. -/
inductive Reachable (σ₀ : Store) : Store → Prop where
  | start : Reachable σ₀ σ₀
  | next {σ : Store} (env : Env) (caller : Caller) (op : Op) :
      Reachable σ₀ σ → Reachable σ₀ (step env caller op σ).2

/-! ## Sample data -/

/-- A counselor with the model's defaults and the given identity, session
count and status. -/
def sampleCounselor (id : Nat) (totalSessions : Int) (status : CounselorStatus) :
    Counselor :=
  { id := id
    email := "c@example.org"
    password := ""
    firstName := "Thandi"
    lastName := "M"
    licenseNumber := "L"
    specializations := []
    bio := none
    avatar := none
    isOnline := true
    status := status
    rating := 0
    totalSessions := totalSessions
    totalHours := 0
    languages := ["en"]
    timezone := "UTC"
    isActive := true }

/-- A session of `userId` with the model's defaults. -/
def sampleSession (id userId : Nat) (counselorId : Option Nat) (status : SessionStatus) :
    ChatSession :=
  { id := id
    userId := userId
    counselorId := counselorId
    status := status
    priority := .medium
    topic := none
    description := none
    startedAt := 0
    endedAt := none
    duration := none
    rating := none
    feedback := none
    isAnonymous := false
    tags := [] }

/-- A text message with the model's defaults. -/
def sampleMessage (id sessionId senderId : Nat) (senderType : SenderType) : ChatMessage :=
  { id := id
    sessionId := sessionId
    senderId := senderId
    senderType := senderType
    message := "hi"
    messageType := .text
    attachmentUrl := none
    isRead := false
    sentAt := 5
    editedAt := none
    isEdited := false }

/-- An environment: the clock at 45 minutes, fresh identifiers 100 and 200. -/
def sampleEnv : Env :=
  { now := 2700000, newSessionId := 100, newMessageId := 200, isURL := fun _ => true }

/-- User 1, authenticated with a user token. -/
def alice : Caller := { userId := 1, userType := .user }

/-- User 2, authenticated with a user token. -/
def bob : Caller := { userId := 2, userType := .user }

/-- Session 10 of user 1 is active with counselor 7 (busy); counselor 8 is
available. -/
def activeStore : Store :=
  { sessions := [sampleSession 10 1 (some 7) .active]
    messages := [sampleMessage 20 10 7 .counselor, sampleMessage 21 10 1 .user,
                 sampleMessage 22 11 7 .counselor]
    counselors := [sampleCounselor 7 0 .busy, sampleCounselor 8 3 .available]
    emitted := [] }

/-- The store after user 1 has ended session 10 of `activeStore`. -/
def closedStore : Store := (endSession sampleEnv alice 10 activeStore).2

/-- The session row of `closedStore`. -/
def closedSession : ChatSession :=
  { sampleSession 10 1 (some 7) .closed with
    endedAt := some 2700000, duration := some 45 }

/-! ## The mean of a counselor's ratings, in the words of the specification -/

/-- The sessions of counselor `counselorId` that carry a rating. -/
def ratedSessionsOf (ss : List ChatSession) (counselorId : Nat) : List ChatSession :=
  ss.filter (fun s => s.counselorId = some counselorId ∧ s.rating ≠ none)

/-- The exact arithmetic mean of all non-null ratings across the sessions of
counselor `counselorId`: their sum divided by their number. -/
def meanRatingOf (ss : List ChatSession) (counselorId : Nat) : ℚ :=
  (((ratedSessionsOf ss counselorId).map (fun s => ((s.rating.getD 0 : Int) : ℚ))).sum) /
    ((ratedSessionsOf ss counselorId).length : ℚ)

/-- Every stored session rating lies in `1..5` (`ChatSession.rating`:
`validate: { min: 1, max: 5 }`). -/
def RatingsInRange (ss : List ChatSession) : Prop :=
  ∀ s ∈ ss, ∀ r ∈ s.rating, 1 ≤ r ∧ r ≤ 5

instance (ss : List ChatSession) : Decidable (RatingsInRange ss) := by
  unfold RatingsInRange
  infer_instance

/-- Counselor 7 has two closed sessions: session 10 of user 1, not rated yet,
and session 11 of user 2, rated 5. -/
def ratingStore : Store :=
  { sessions := [closedSession,
                 { sampleSession 11 2 (some 7) .closed with rating := some 5 }]
    messages := []
    counselors := [{ sampleCounselor 7 2 .available with rating := 5 },
                   sampleCounselor 8 3 .available]
    emitted := [] }

/-- Counselor 7 has three closed sessions: session 10 of user 1, not rated
yet, and sessions 11 and 12 of users 2 and 3, each rated 5. -/
def threeSessionsStore : Store :=
  { sessions := [closedSession,
                 { sampleSession 11 2 (some 7) .closed with rating := some 5 },
                 { sampleSession 12 3 (some 7) .closed with rating := some 5 }]
    messages := []
    counselors := [{ sampleCounselor 7 3 .available with rating := 5 },
                   sampleCounselor 8 3 .available]
    emitted := [] }

/-- The store after user 1 has rated session 10 of `ratingStore` with 5. -/
def ratedStore : Store :=
  (rateSession alice 10 { rating := 5, feedback := some "great" } ratingStore).2

/-! ## The capacity of a counselor -/

/-- The session holds counselor `cid` while its status satisfies `holds`. -/
def holdsCounselor (holds : SessionStatus → Bool) (cid : Nat) (s : ChatSession) : Bool :=
  holds s.status && s.counselorId == some cid

/-- Every counselor referenced by a session whose status satisfies `holds`
has status busy and is referenced by at most one such session. -/
def CounselorCapacity (holds : SessionStatus → Bool) (σ : Store) : Prop :=
  ∀ s ∈ σ.sessions, holds s.status = true → ∀ cid ∈ s.counselorId,
    (∀ c ∈ σ.counselors, c.id = cid → c.status = .busy) ∧
    σ.sessions.countP (holdsCounselor holds cid) ≤ 1

instance (holds : SessionStatus → Bool) (σ : Store) :
    Decidable (CounselorCapacity holds σ) := by
  unfold CounselorCapacity
  infer_instance

/-- The status is `active`. -/
def isActiveStatus (st : SessionStatus) : Bool := st == .active

/-- The status is `waiting`, `active` or `escalated`. -/
def isNotClosed (st : SessionStatus) : Bool := st != .closed

/-- Counselor 7 (busy) is referenced by the escalated session 10 of user 1
and by the active session 11 of user 2. -/
def escalatedStore : Store :=
  { sessions := [sampleSession 10 1 (some 7) .escalated,
                 sampleSession 11 2 (some 7) .active]
    messages := []
    counselors := [sampleCounselor 7 0 .busy]
    emitted := [] }

/-- User 3, authenticated with a user token. -/
def carol : Caller := { userId := 3, userType := .user }

/-- A `POST /sessions` body with every field left out. -/
def emptyCreateReq : CreateReq :=
  { topic := none, description := none, priority := none, isAnonymous := none }

/-! ## Requests on a session, and the sender kind of an account -/

/-- The `:id` parameter of a request, for the routes that have one. -/
def Op.sessionId : Op → Option Nat
  | .createSession _ => none
  | .getMessages id _ => some id
  | .sendMessage id _ => some id
  | .rateSession id _ => some id
  | .endSession id => some id

/-- Whether a request passes the validators of its route. -/
def Op.valid (env : Env) : Op → Bool
  | .createSession req => validCreate req
  | .getMessages _ q => validMessagesQuery q
  | .sendMessage _ req => validSend env req
  | .rateSession _ req => validRate req
  | .endSession _ => true

/-- The `senderType` that matches an account kind. -/
def UserType.senderType : UserType → SenderType
  | .user => .user
  | .counselor => .counselor

/-! ## One open session per user -/

/-- The session belongs to `userId` and its status is waiting or active: the
`where` clause of the duplicate check of `POST /sessions`. -/
def isOpenFor (userId : Nat) (s : ChatSession) : Bool :=
  s.userId == userId && (s.status == .waiting || s.status == .active)

/-- Every user has at most one session with status waiting or active. -/
def OneOpenSession (σ : Store) : Prop :=
  ∀ s ∈ σ.sessions, σ.sessions.countP (isOpenFor s.userId) ≤ 1

instance (σ : Store) : Decidable (OneOpenSession σ) := by
  unfold OneOpenSession
  infer_instance

/-! ## The order of the matcher -/

instance : IsTotal Counselor (fun a b => a.totalSessions ≤ b.totalSessions) :=
  ⟨fun a b => le_total a.totalSessions b.totalSessions⟩

instance : IsTrans Counselor (fun a b => a.totalSessions ≤ b.totalSessions) :=
  ⟨fun _ _ _ hab hbc => le_trans hab hbc⟩

/-- A one-word text message. -/
def helloReq : SendReq :=
  { message := "hello", messageType := none, attachmentUrl := none }

/-! ## The key of the matcher -/

/-- What the matcher reads of a counselor apart from `status`: identity,
session count, and the online and active flags. -/
def Counselor.matchKey (c : Counselor) : Nat × Int × Bool × Bool :=
  (c.id, c.totalSessions, c.isOnline, c.isActive)

/-! ## Runs with fresh session identifiers -/

/-- The stores reachable from `σ₀` when every `POST /sessions` draws a session
id (`UUIDV4`) that no stored session has. -/
inductive ReachableFresh (σ₀ : Store) : Store → Prop where
  | start : ReachableFresh σ₀ σ₀
  | next {σ : Store} (env : Env) (caller : Caller) (op : Op) :
      ReachableFresh σ₀ σ →
      (∀ req, op = .createSession req → ∀ s ∈ σ.sessions, s.id ≠ env.newSessionId) →
      ReachableFresh σ₀ (step env caller op σ).2

/-- Every session with a non-null rating is closed and its rating lies in
`1..5`. -/
def RatedClosed (σ : Store) : Prop :=
  ∀ s ∈ σ.sessions, ∀ r ∈ s.rating, s.status = .closed ∧ 1 ≤ r ∧ r ≤ 5

instance (σ : Store) : Decidable (RatedClosed σ) := by
  unfold RatedClosed
  infer_instance

/-! ## `GET /counselors/available` -/

/-- A row as `GET /counselors/available` returns it: `attributes: ['id',
'firstName', 'lastName', 'avatar', 'bio', 'specializations', 'rating',
'totalSessions']`. -/
structure CounselorSummary where
  id : Nat
  firstName : String
  lastName : String
  avatar : Option String
  bio : Option String
  specializations : List String
  rating : ℚ
  totalSessions : Int
deriving DecidableEq

/-- The attributes of a counselor row that the route selects. -/
def Counselor.summary (c : Counselor) : CounselorSummary :=
  { id := c.id
    firstName := c.firstName
    lastName := c.lastName
    avatar := c.avatar
    bio := c.bio
    specializations := c.specializations
    rating := c.rating
    totalSessions := c.totalSessions }

/-- The body of the answer of `router.get('/counselors/available')`. -/
def getAvailableCounselors (σ : Store) : List CounselorSummary :=
  (availableCounselors σ).map Counselor.summary

/-- User 1 has the waiting session 30; counselor 8 has just come online and
is available. -/
def waitingStore : Store :=
  { sessions := [sampleSession 30 1 none .waiting]
    messages := []
    counselors := [sampleCounselor 8 3 .available]
    emitted := [] }

/-! ## Mood insights: the streak analysis (`src/backend/routes/moods.js`) -/

/-- A row of `MoodEntry` (`models/MoodEntry.js`), as far as the insights read
it: the owner, the mood (an integer, validated to `1..5`), the note and the
day. -/
structure MoodEntry where
  userId : Nat
  mood : Int
  note : Option String
  date : Nat
deriving DecidableEq, Repr

/-- The three counters of the streak analysis. -/
structure StreakState where
  currentStreak : Nat
  maxStreak : Nat
  tempStreak : Nat
deriving DecidableEq, Repr

/-- The body of `for (let i = 0; i < moodEntries.length; i++)` at index `i`. -/
def streakStep (st : StreakState) (i : Nat) (entry : MoodEntry) : StreakState :=
  if 3 ≤ entry.mood then
    { st with
      tempStreak := st.tempStreak + 1
      currentStreak := if i = 0 then st.tempStreak + 1 else st.currentStreak }
  else
    { st with
      maxStreak := max st.maxStreak st.tempStreak
      tempStreak := 0 }

/-- The loop of the streak analysis from index `i` on. -/
def streakLoop : List MoodEntry → Nat → StreakState → StreakState
  | [], _, st => st
  | entry :: rest, i, st => streakLoop rest (i + 1) (streakStep st i entry)

/-- The streak analysis of `router.get('/insights')`: the loop from
`currentStreak = 0, maxStreak = 0, tempStreak = 0`, then
`maxStreak = Math.max(maxStreak, tempStreak)`. -/
def streakAnalysis (moodEntries : List MoodEntry) : StreakState :=
  let st := streakLoop moodEntries 0
    { currentStreak := 0, maxStreak := 0, tempStreak := 0 }
  { st with maxStreak := max st.maxStreak st.tempStreak }

/-- Whether the insight titled 'Mood Tracking Streak' is pushed:
`if (currentStreak >= 7)`. -/
def streakInsightEmitted (moodEntries : List MoodEntry) : Bool :=
  decide (7 ≤ (streakAnalysis moodEntries).currentStreak)

/-- The current streak in the words of the claim: the number of consecutive
entries, counted from the most recent one, whose mood is at least 3. -/
def leadingStreak (moodEntries : List MoodEntry) : Nat :=
  (moodEntries.takeWhile (fun entry => decide (3 ≤ entry.mood))).length

/-- Seven entries, most recent first, each with mood 4. -/
def sevenGoodDays : List MoodEntry :=
  [7, 6, 5, 4, 3, 2, 1].map (fun day => { userId := 1, mood := 4, note := none, date := day })

/-! ## `POST /sessions`, one database call at a time

The handler of `POST /sessions` awaits five database calls. Between two of
them another request may run. `createStep` is the handler cut at its `await`
points; `runTwo` interleaves two such handlers along a schedule. -/

/-- Where a `POST /sessions` handler stands. -/
inductive CreatePhase where
  /-- Nothing has run yet. -/
  | start
  /-- The validators passed and `ChatSession.findOne` found no open session. -/
  | checked
  /-- `Counselor.findOne` returned `availableCounselor`. -/
  | matched (availableCounselor : Option Counselor)
  /-- `availableCounselor.update({ status: 'busy' })` has run, or there was no
  counselor; `counselorId` is set. -/
  | updated (counselorId : Option Nat)
  /-- `ChatSession.create` has run. -/
  | created (session : ChatSession)
  /-- The answer has been sent. -/
  | done (response : Response)
deriving DecidableEq

/-- A `POST /sessions` request being served. -/
structure CreateTask where
  env : Env
  caller : Caller
  req : CreateReq
  phase : CreatePhase

/-- The handler of `POST /sessions` up to its next `await`. -/
def createStep (t : CreateTask) (σ : Store) : CreateTask × Store :=
  match t.phase with
  | .start =>
      if validCreate t.req = false then ({ t with phase := .done .validationErrors }, σ)
      else
        match findOpenSession σ t.caller.userId with
        | some existingSession =>
            ({ t with phase := .done (.existingSession
                "You already have an active chat session" existingSession.id) }, σ)
        | none => ({ t with phase := .checked }, σ)
  | .checked => ({ t with phase := .matched (findAvailableCounselor σ) }, σ)
  | .matched (some availableCounselor) =>
      ({ t with phase := .updated (some availableCounselor.id) },
        { σ with
          counselors :=
            updateCounselors (fun c => { c with status := .busy }) availableCounselor.id
              σ.counselors })
  | .matched none => ({ t with phase := .updated none }, σ)
  | .updated counselorId =>
      let session := newSession t.env t.caller.userId counselorId t.req
      ({ t with phase := .created session }, { σ with sessions := σ.sessions ++ [session] })
  | .created session =>
      match session.counselorId with
      | some counselorId =>
          ({ t with phase := .done (.sessionCreated session true) },
            { σ with messages := σ.messages ++ [welcomeMessage t.env counselorId] })
      | none => ({ t with phase := .done (.sessionCreated session false) }, σ)
  | .done _ => (t, σ)

/-- The handler run for `n` steps without interruption. -/
def createRun : Nat → CreateTask → Store → CreateTask × Store
  | 0, t, σ => (t, σ)
  | n + 1, t, σ => createRun n (createStep t σ).1 (createStep t σ).2

/-- Two handlers interleaved: at `false` the first one moves, at `true` the
second. -/
def runTwo : List Bool → CreateTask → CreateTask → Store → CreateTask × CreateTask × Store
  | [], a, b, σ => (a, b, σ)
  | false :: rest, a, b, σ => runTwo rest (createStep a σ).1 b (createStep a σ).2
  | true :: rest, a, b, σ => runTwo rest a (createStep b σ).1 (createStep b σ).2

/-- The schedule that serves the first request to its end, then the second. -/
def sequentialSchedule : List Bool :=
  [false, false, false, false, false, true, true, true, true, true]

/-- The schedule that alternates between the two requests. -/
def alternatingSchedule : List Bool :=
  [false, true, false, true, false, true, false, true, false, true]

/-- A second environment: same clock, other fresh identifiers. -/
def sampleEnv₂ : Env :=
  { now := 2700000, newSessionId := 101, newMessageId := 201, isURL := fun _ => true }

/-- The request of user 2, not yet started. -/
def bobTask : CreateTask :=
  { env := sampleEnv, caller := bob, req := emptyCreateReq, phase := .start }

/-- The request of user 3, not yet started. -/
def carolTask : CreateTask :=
  { env := sampleEnv₂, caller := carol, req := emptyCreateReq, phase := .start }

/-! ## Basic facts about the table updates -/

theorem getElem?_updateCounselors (f : Counselor → Counselor) (id : Nat)
    (cs : List Counselor) (i : Nat) :
    (updateCounselors f id cs)[i]? =
      (cs[i]?).map (fun c => if c.id = id then f c else c) := by
  simp [updateCounselors]

theorem getElem?_updateSessions (f : ChatSession → ChatSession) (id : Nat)
    (ss : List ChatSession) (i : Nat) :
    (updateSessions f id ss)[i]? =
      (ss[i]?).map (fun s => if s.id = id then f s else s) := by
  simp [updateSessions]

theorem findSession_mem {σ : Store} {id userId : Nat} {session : ChatSession}
    (h : findSession σ id userId = some session) :
    session ∈ σ.sessions ∧ session.id = id ∧ session.userId = userId := by
  unfold findSession at h
  have hp := List.find?_some h
  have hm := List.mem_of_find?_eq_some h
  simp only [Bool.and_eq_true, beq_iff_eq] at hp
  exact ⟨hm, hp.1, hp.2⟩

/-- The answer and the store of a successful end. -/
theorem endSession_of_open {env : Env} {caller : Caller} {id : Nat} {σ : Store}
    {session : ChatSession} (hfind : findSession σ id caller.userId = some session)
    (hopen : session.status ≠ .closed) :
    endSession env caller id σ =
      (.ok "Session ended successfully",
        { σ with
          sessions := updateSessions
            (fun s => { s with status := .closed, endedAt := some env.now,
                               duration := some (durationMinutes env.now session.startedAt) })
            session.id σ.sessions
          counselors := match session.counselorId with
            | some cid =>
                updateCounselors (fun c => { c with status := .available }) cid σ.counselors
            | none => σ.counselors }) := by
  unfold endSession
  rw [hfind]
  simp only [hopen, if_false]
  cases session.counselorId <;> rfl

/-- An end of a closed session is refused and writes nothing. -/
theorem endSession_of_closed {env : Env} {caller : Caller} {id : Nat} {σ : Store}
    {session : ChatSession} (hfind : findSession σ id caller.userId = some session)
    (hclosed : session.status = .closed) :
    endSession env caller id σ = (.error 400 "Session already closed", σ) := by
  unfold endSession
  rw [hfind]
  simp [hclosed]

/-- A rate of a session that is not closed is refused and writes nothing. -/
theorem rateSession_of_open {caller : Caller} {id : Nat} (req : RateReq) {σ : Store}
    {session : ChatSession} (hfind : findSession σ id caller.userId = some session)
    (hopen : session.status ≠ .closed) :
    rateSession caller id req σ = (.validationErrors, σ) ∨
    rateSession caller id req σ = (.error 400 "Can only rate closed sessions", σ) := by
  unfold rateSession
  by_cases hv : validRate req = false
  · left; simp [hv]
  · right
    rw [hfind]
    simp [hv, hopen]

/-! ## End of a session -/

/-- C11: a successful end of a session with assigned counselor `cid` leaves
every counselor row with that id equal to what it was except for `status`,
which is `available` whatever it was before; every other counselor row is
unchanged; and the end of a session without a counselor changes no counselor
row. -/
theorem endSession_frees_counselor (env : Env) (caller : Caller) (id : Nat) (σ : Store)
    (session : ChatSession)
    (hfind : findSession σ id caller.userId = some session)
    (hopen : session.status ≠ .closed) :
    (endSession env caller id σ).1.status = 200 ∧
    (∀ cid, session.counselorId = some cid →
      (endSession env caller id σ).2.counselors.length = σ.counselors.length ∧
      ∀ (i : Nat) (c : Counselor), σ.counselors[i]? = some c →
        (c.id = cid →
          (endSession env caller id σ).2.counselors[i]? =
            some { c with status := .available }) ∧
        (c.id ≠ cid → (endSession env caller id σ).2.counselors[i]? = some c)) ∧
    (session.counselorId = none →
      (endSession env caller id σ).2.counselors = σ.counselors) := by
  rw [endSession_of_open hfind hopen]
  refine ⟨rfl, ?_, ?_⟩
  · intro cid hcid
    refine ⟨by simp [hcid, updateCounselors], ?_⟩
    intro i c hc
    simp only [hcid, getElem?_updateCounselors, hc, Option.map_some']
    constructor
    · intro h; simp [h]
    · intro h; simp [h]
  · intro h
    simp [h]

/-- C11 at a concrete store: user 1 ends session 10, held by the busy
counselor 7; counselor 7 becomes available and counselor 8 is untouched. -/
theorem endSession_frees_counselor_witness :
    (endSession sampleEnv alice 10 activeStore).1.status = 200 ∧
    (endSession sampleEnv alice 10 activeStore).2.counselors[0]? =
      some { sampleCounselor 7 0 .busy with status := .available } ∧
    (endSession sampleEnv alice 10 activeStore).2.counselors[1]? =
      some (sampleCounselor 8 3 .available) :=
  have h := endSession_frees_counselor sampleEnv alice 10 activeStore
    (sampleSession 10 1 (some 7) .active) (by decide) (by decide)
  ⟨h.1, ((h.2.1 7 rfl).2 0 _ rfl).1 rfl, ((h.2.1 7 rfl).2 1 _ rfl).2 (by decide)⟩

/-- C12: the end of a session that is already closed answers 400 and leaves
the whole store as it was, so the session keeps its status, `endedAt` and
`duration`, and its counselor is not set to available again. -/
theorem endSession_closed_rejected (env : Env) (caller : Caller) (id : Nat) (σ : Store)
    (session : ChatSession)
    (hfind : findSession σ id caller.userId = some session)
    (hclosed : session.status = .closed) :
    (endSession env caller id σ).1 = .error 400 "Session already closed" ∧
    (endSession env caller id σ).1.status = 400 ∧
    (endSession env caller id σ).2 = σ := by
  rw [endSession_of_closed hfind hclosed]
  exact ⟨rfl, rfl, rfl⟩

/-- C13: a rate of a session whose status is waiting, active or escalated
answers 400 and leaves the whole store as it was, whatever the rating and the
feedback. -/
theorem rateSession_open_rejected (caller : Caller) (id : Nat) (req : RateReq) (σ : Store)
    (session : ChatSession)
    (hfind : findSession σ id caller.userId = some session)
    (hopen : session.status = .waiting ∨ session.status = .active ∨
      session.status = .escalated) :
    (rateSession caller id req σ).1.status = 400 ∧
    (validRate req = true →
      (rateSession caller id req σ).1 = .error 400 "Can only rate closed sessions") ∧
    (rateSession caller id req σ).2 = σ := by
  have hne : session.status ≠ .closed := by
    rcases hopen with h | h | h <;> simp [h]
  refine ⟨?_, ?_, ?_⟩
  · rcases rateSession_of_open req hfind hne with h | h <;> rw [h] <;> rfl
  · intro hv
    unfold rateSession
    rw [hfind]
    simp [hv, hne]
  · rcases rateSession_of_open req hfind hne with h | h <;> rw [h]

/-- C13 at a concrete store: user 1 rates the active session 10 with 4. -/
theorem rateSession_open_rejected_witness :
    (rateSession alice 10 { rating := 4, feedback := none } activeStore).1.status = 400 ∧
    (rateSession alice 10 { rating := 4, feedback := none } activeStore).2 = activeStore :=
  have h := rateSession_open_rejected alice 10 { rating := 4, feedback := none } activeStore
    (sampleSession 10 1 (some 7) .active) (by decide) (Or.inr (Or.inl (by decide)))
  ⟨h.1, h.2.2⟩

/-- C12 at a concrete store: user 1 ends session 10 a second time. -/
theorem endSession_closed_rejected_witness :
    (endSession sampleEnv alice 10 closedStore).1.status = 400 ∧
    (endSession sampleEnv alice 10 closedStore).2 = closedStore :=
  have h := endSession_closed_rejected sampleEnv alice 10 closedStore closedSession
    (by decide) (by decide)
  ⟨h.2.1, h.2.2⟩

/-! ## Rounding to a double -/

theorem floor_le_roundHalfEven (x : ℚ) : ⌊x⌋ ≤ roundHalfEven x := by
  unfold roundHalfEven
  split
  · exact le_refl _
  · split
    · omega
    · split <;> omega

theorem roundHalfEven_le_floor_add_one (x : ℚ) : roundHalfEven x ≤ ⌊x⌋ + 1 := by
  unfold roundHalfEven
  split
  · omega
  · split
    · omega
    · split <;> omega

/-- An integer rounds to itself. -/
theorem roundHalfEven_intCast (n : Int) : roundHalfEven (n : ℚ) = n := by
  unfold roundHalfEven
  simp

theorem le_roundHalfEven {n : Int} {x : ℚ} (h : (n : ℚ) ≤ x) : n ≤ roundHalfEven x :=
  le_trans (Int.le_floor.mpr h) (floor_le_roundHalfEven x)

theorem roundHalfEven_le {n : Int} {x : ℚ} (h : x ≤ (n : ℚ)) : roundHalfEven x ≤ n := by
  rcases eq_or_lt_of_le h with heq | hlt
  · rw [heq, roundHalfEven_intCast]
  · have hfl : ⌊x⌋ < n := Int.floor_lt.mpr hlt
    have := roundHalfEven_le_floor_add_one x
    omega

/-- Rounding moves a number by at most a half. -/
theorem abs_roundHalfEven_sub_le (x : ℚ) : |(roundHalfEven x : ℚ) - x| ≤ 1 / 2 := by
  have h0 : (⌊x⌋ : ℚ) ≤ x := Int.floor_le x
  have h1 : x < (⌊x⌋ : ℚ) + 1 := Int.lt_floor_add_one x
  unfold roundHalfEven
  rw [abs_le]
  split
  · constructor <;> linarith
  · split
    · push_cast
      constructor <;> linarith
    · have : x - ⌊x⌋ = 1 / 2 := by linarith
      split
      · constructor <;> linarith
      · push_cast
        constructor <;> linarith

/-- The exponent of a number between 1 and 5 is at most 2. -/
theorem exponent_le_two {x : ℚ} (h1 : 1 ≤ x) (h5 : x ≤ 5) :
    max (Int.log 2 |x|) (-1022) ≤ 2 := by
  have hpos : 0 < x := by linarith
  rw [abs_of_pos hpos]
  have : Int.log 2 x < 3 := by
    rw [← Int.lt_zpow_iff_log_lt (by norm_num) hpos]
    norm_num
    linarith
  omega

/-- The nearest double of a number whose exponent is at most 52: the spacing
of the doubles around it is `1 / 2 ^ k` for a natural number `k`. -/
theorem nearestDouble_eq_of_le {x : ℚ} {e : Int} (he : max (Int.log 2 |x|) (-1022) = e)
    (hk : e ≤ 52) :
    nearestDouble x = (roundHalfEven (x * 2 ^ (52 - e).toNat) : ℚ) / 2 ^ (52 - e).toNat := by
  unfold nearestDouble
  simp only [he]
  have hz : e - 52 = -((52 - e).toNat : Int) := by omega
  rw [hz, zpow_neg, zpow_natCast, div_inv_eq_mul, div_eq_mul_inv]

/-- Rounding to a double keeps a number within `1..5`: 1 and 5 are doubles. -/
theorem nearestDouble_bounds {x : ℚ} (h1 : 1 ≤ x) (h5 : x ≤ 5) :
    1 ≤ nearestDouble x ∧ nearestDouble x ≤ 5 := by
  have he := exponent_le_two h1 h5
  rw [nearestDouble_eq_of_le rfl (by omega)]
  generalize (52 - max (Int.log 2 |x|) (-1022)).toNat = k
  have hk : (0 : ℚ) < 2 ^ k := by positivity
  constructor
  · rw [le_div_iff₀ hk, one_mul]
    have : (((2 ^ k : Int)) : ℚ) ≤ x * 2 ^ k := by
      push_cast
      nlinarith
    exact_mod_cast le_roundHalfEven this
  · rw [div_le_iff₀ hk]
    have : x * 2 ^ k ≤ (((5 * 2 ^ k : Int)) : ℚ) := by
      push_cast
      nlinarith
    exact_mod_cast roundHalfEven_le this

/-- Rounding to a double moves a number within `1..5` by at most `2 ^ (-51)`. -/
theorem nearestDouble_error {x : ℚ} (h1 : 1 ≤ x) (h5 : x ≤ 5) :
    |nearestDouble x - x| ≤ 1 / 2 ^ 51 := by
  have he := exponent_le_two h1 h5
  rw [nearestDouble_eq_of_le rfl (by omega)]
  have hk50 : 50 ≤ (52 - max (Int.log 2 |x|) (-1022)).toNat := by omega
  generalize (52 - max (Int.log 2 |x|) (-1022)).toNat = k at hk50
  have hk : (0 : ℚ) < 2 ^ k := by positivity
  have hr := abs_roundHalfEven_sub_le (x * 2 ^ k)
  have hpow : (2 : ℚ) ^ 50 ≤ 2 ^ k := pow_le_pow_right₀ (by norm_num) hk50
  have heq : (roundHalfEven (x * 2 ^ k) : ℚ) / 2 ^ k - x =
      ((roundHalfEven (x * 2 ^ k) : ℚ) - x * 2 ^ k) / 2 ^ k := by
    field_simp
    ring
  rw [heq, abs_div, abs_of_pos hk, div_le_iff₀ hk]
  calc |(roundHalfEven (x * 2 ^ k) : ℚ) - x * 2 ^ k| ≤ 1 / 2 := hr
    _ = 1 / 2 ^ 51 * 2 ^ 50 := by norm_num
    _ ≤ 1 / 2 ^ 51 * 2 ^ k := by
      apply mul_le_mul_of_nonneg_left hpow
      positivity

/-! ## Rating -/

theorem foldl_add_eq_sum (l : List Int) (a : Int) :
    l.foldl (fun sum r => sum + r) a = a + l.sum := by
  induction l generalizing a with
  | nil => simp
  | cons x xs ih => simp [ih, add_assoc]

/-- The ratings the route reads are the ratings of the rated sessions. -/
theorem allRatings_eq_map (ss : List ChatSession) (cid : Nat) :
    allRatings ss cid = (ratedSessionsOf ss cid).map (fun s => s.rating.getD 0) := by
  unfold allRatings ratedSessionsOf
  induction ss with
  | nil => rfl
  | cons s ss ih =>
    by_cases hc : s.counselorId = some cid
    · cases hr : s.rating with
      | none => simp [List.filterMap_cons, List.filter_cons, hc, hr, ih]
      | some r => simp [List.filterMap_cons, List.filter_cons, hc, hr, ih]
    · simp [List.filterMap_cons, List.filter_cons, hc, ih]

/-- The quotient the route computes is the double nearest to the mean of the
specification. -/
theorem averageRating_allRatings (ss : List ChatSession) (cid : Nat) :
    averageRating (allRatings ss cid) = nearestDouble (meanRatingOf ss cid) := by
  unfold averageRating meanRatingOf
  rw [foldl_add_eq_sum, allRatings_eq_map]
  simp [List.length_map, Function.comp_def]

theorem sum_bounds (l : List Int) (h : ∀ x ∈ l, 1 ≤ x ∧ x ≤ 5) :
    (l.length : Int) ≤ l.sum ∧ l.sum ≤ 5 * (l.length : Int) := by
  induction l with
  | nil => simp
  | cons x xs ih =>
    have hx := h x (List.mem_cons_self x xs)
    have hxs := ih (fun y hy => h y (List.mem_cons_of_mem x hy))
    simp only [List.length_cons, List.sum_cons, Nat.cast_add, Nat.cast_one]
    constructor <;> omega

/-- The exact mean of a non-empty list of ratings in `1..5` lies in `1..5`. -/
theorem quotient_bounds (l : List Int) (hne : l ≠ [])
    (h : ∀ x ∈ l, 1 ≤ x ∧ x ≤ 5) :
    1 ≤ ((l.sum : Int) : ℚ) / (l.length : ℚ) ∧ ((l.sum : Int) : ℚ) / (l.length : ℚ) ≤ 5 := by
  have hlen : 0 < l.length := List.length_pos.mpr hne
  have hq : (0 : ℚ) < (l.length : ℚ) := by exact_mod_cast hlen
  have hs := sum_bounds l h
  constructor
  · rw [le_div_iff₀ hq, one_mul]
    exact_mod_cast hs.1
  · rw [div_le_iff₀ hq]
    exact_mod_cast hs.2

/-- The quotient the route computes for a non-empty list of ratings in `1..5`
lies in `1..5`. -/
theorem averageRating_bounds (l : List Int) (hne : l ≠ [])
    (h : ∀ x ∈ l, 1 ≤ x ∧ x ≤ 5) :
    1 ≤ averageRating l ∧ averageRating l ≤ 5 := by
  have hq := quotient_bounds l hne h
  unfold averageRating
  rw [foldl_add_eq_sum, zero_add]
  exact nearestDouble_bounds hq.1 hq.2

theorem mem_updateSessions {f : ChatSession → ChatSession} {id : Nat}
    {ss : List ChatSession} {t : ChatSession} :
    t ∈ updateSessions f id ss ↔
      ∃ s ∈ ss, (if s.id = id then f s else s) = t := by
  simp [updateSessions]

/-- After `session.update({ rating, feedback })` the ratings of the sessions
of a counselor are in range and contain the new rating. -/
theorem allRatings_after_update {σ : Store} {session : ChatSession} {req : RateReq}
    {cid : Nat} (hmem : session ∈ σ.sessions) (hcid : session.counselorId = some cid)
    (hv : validRate req = true) (hdata : RatingsInRange σ.sessions) :
    allRatings (updateSessions (setRating req) session.id σ.sessions) cid ≠ [] ∧
    ∀ x ∈ allRatings (updateSessions (setRating req) session.id σ.sessions) cid,
      1 ≤ x ∧ x ≤ 5 := by
  have hr : 1 ≤ req.rating ∧ req.rating ≤ 5 := by
    unfold validRate at hv
    simp only [Bool.and_eq_true, decide_eq_true_eq] at hv
    exact ⟨hv.1.1, hv.1.2⟩
  constructor
  · intro hnil
    have : req.rating ∈
        allRatings (updateSessions (setRating req) session.id σ.sessions) cid := by
      unfold allRatings
      rw [List.mem_filterMap]
      refine ⟨setRating req session, mem_updateSessions.mpr ⟨session, hmem, by simp⟩, ?_⟩
      simp [setRating, hcid]
    rw [hnil] at this
    exact absurd this (List.not_mem_nil _)
  · intro x hx
    unfold allRatings at hx
    rw [List.mem_filterMap] at hx
    obtain ⟨t, ht, htx⟩ := hx
    obtain ⟨s, hs, hst⟩ := mem_updateSessions.mp ht
    by_cases hc : t.counselorId = some cid
    · rw [if_pos hc] at htx
      by_cases hid : s.id = session.id
      · rw [if_pos hid] at hst
        subst hst
        simp only [setRating, Option.some.injEq] at htx
        omega
      · rw [if_neg hid] at hst
        subst hst
        exact hdata s hs x htx
    · rw [if_neg hc] at htx
      exact absurd htx (by simp)

theorem findCounselorByPk_some {σ : Store} {cid : Nat} {k : Counselor}
    (h : findCounselorByPk σ cid = some k) : k.id = cid := by
  unfold findCounselorByPk at h
  simpa using List.find?_some h

theorem findCounselorByPk_none {σ : Store} {cid : Nat}
    (h : findCounselorByPk σ cid = none) : ∀ c ∈ σ.counselors, c.id ≠ cid := by
  unfold findCounselorByPk at h
  simpa using h

/-- A valid rate of a closed session without a counselor. -/
theorem rateSession_of_closed_none {caller : Caller} {id : Nat} {req : RateReq}
    {σ : Store} {session : ChatSession}
    (hfind : findSession σ id caller.userId = some session)
    (hclosed : session.status = .closed) (hv : validRate req = true)
    (hcid : session.counselorId = none) :
    rateSession caller id req σ =
      (.ok "Session rated successfully",
        { σ with sessions := updateSessions (setRating req) session.id σ.sessions }) := by
  unfold rateSession
  rw [hfind]
  simp [hv, hclosed, hcid]

/-- A valid rate of a closed session whose counselor row is gone. -/
theorem rateSession_of_closed_missing {caller : Caller} {id : Nat} {req : RateReq}
    {σ : Store} {session : ChatSession} {cid : Nat}
    (hfind : findSession σ id caller.userId = some session)
    (hclosed : session.status = .closed) (hv : validRate req = true)
    (hcid : session.counselorId = some cid) (hk : findCounselorByPk σ cid = none) :
    rateSession caller id req σ =
      (.ok "Session rated successfully",
        { σ with sessions := updateSessions (setRating req) session.id σ.sessions }) := by
  unfold rateSession
  rw [hfind]
  simp [hv, hclosed, hcid, hk]

/-- A valid rate of a closed session with a counselor. -/
theorem rateSession_of_closed_some {caller : Caller} {id : Nat} {req : RateReq}
    {σ : Store} {session : ChatSession} {cid : Nat} {k : Counselor}
    (hfind : findSession σ id caller.userId = some session)
    (hclosed : session.status = .closed) (hv : validRate req = true)
    (hcid : session.counselorId = some cid) (hk : findCounselorByPk σ cid = some k) :
    rateSession caller id req σ =
      if 0 ≤ averageRating
            (allRatings (updateSessions (setRating req) session.id σ.sessions) cid) ∧
          averageRating
            (allRatings (updateSessions (setRating req) session.id σ.sessions) cid) ≤ 5 then
        (.ok "Session rated successfully",
          { σ with
            sessions := updateSessions (setRating req) session.id σ.sessions
            counselors :=
              updateCounselors
                (fun c => { c with rating := averageRating (allRatings
                  (updateSessions (setRating req) session.id σ.sessions) cid) })
                cid σ.counselors })
      else
        (.error 500 "Internal server error",
          { σ with sessions := updateSessions (setRating req) session.id σ.sessions }) := by
  unfold rateSession
  rw [hfind]
  simp [hv, hclosed, hcid, hk, findCounselorByPk_some hk]

/-- A rate that answers 200 passed the validators and found a closed session. -/
theorem rateSession_ok_inv {caller : Caller} {id : Nat} {req : RateReq} {σ : Store}
    {session : ChatSession} (hfind : findSession σ id caller.userId = some session)
    (hok : (rateSession caller id req σ).1.status = 200) :
    validRate req = true ∧ session.status = .closed := by
  constructor
  · by_contra hv
    have hv' : validRate req = false := by simpa using hv
    unfold rateSession at hok
    simp [hv', Response.status] at hok
  · by_contra hc
    rcases rateSession_of_open req hfind hc with h | h <;>
      rw [h] at hok <;> simp [Response.status] at hok

/-- A valid rate of a closed session answers 200 when the stored ratings are
in range. -/
theorem rateSession_ok {caller : Caller} {id : Nat} {req : RateReq} {σ : Store}
    {session : ChatSession} (hfind : findSession σ id caller.userId = some session)
    (hclosed : session.status = .closed) (hv : validRate req = true)
    (hdata : RatingsInRange σ.sessions) :
    (rateSession caller id req σ).1 = .ok "Session rated successfully" := by
  cases hcid : session.counselorId with
  | none => rw [rateSession_of_closed_none hfind hclosed hv hcid]
  | some cid =>
    cases hk : findCounselorByPk σ cid with
    | none => rw [rateSession_of_closed_missing hfind hclosed hv hcid hk]
    | some k =>
      have hb := allRatings_after_update (findSession_mem hfind).1 hcid hv hdata
      have havg := averageRating_bounds _ hb.1 hb.2
      have h0 : (0 : ℚ) ≤ averageRating
          (allRatings (updateSessions (setRating req) session.id σ.sessions) cid) :=
        le_trans (by norm_num) havg.1
      rw [rateSession_of_closed_some hfind hclosed hv hcid hk, if_pos ⟨h0, havg.2⟩]

/-- The rows a rate leaves in the two tables, when it answers 200. -/
theorem rateSession_effect {caller : Caller} {id : Nat} {req : RateReq} {σ : Store}
    {session : ChatSession} (hfind : findSession σ id caller.userId = some session)
    (hok : (rateSession caller id req σ).1.status = 200) :
    (rateSession caller id req σ).2.sessions =
      updateSessions (setRating req) session.id σ.sessions ∧
    ∀ cid, session.counselorId = some cid →
      ∀ (i : Nat) (c : Counselor), σ.counselors[i]? = some c → c.id = cid →
        (rateSession caller id req σ).2.counselors[i]? =
          some { c with rating :=
            nearestDouble (meanRatingOf (rateSession caller id req σ).2.sessions cid) } := by
  obtain ⟨hv, hclosed⟩ := rateSession_ok_inv hfind hok
  cases hcid : session.counselorId with
  | none =>
    rw [rateSession_of_closed_none hfind hclosed hv hcid]
    simp
  | some cid =>
    cases hk : findCounselorByPk σ cid with
    | none =>
      rw [rateSession_of_closed_missing hfind hclosed hv hcid hk]
      refine ⟨rfl, ?_⟩
      intro cid' hcid' i c hc hid
      simp only [Option.some.injEq] at hcid'
      subst hcid'
      exact absurd hid (findCounselorByPk_none hk c (List.getElem?_mem hc))
    | some k =>
      rw [rateSession_of_closed_some hfind hclosed hv hcid hk] at hok ⊢
      by_cases hr : 0 ≤ averageRating
          (allRatings (updateSessions (setRating req) session.id σ.sessions) cid) ∧
          averageRating
          (allRatings (updateSessions (setRating req) session.id σ.sessions) cid) ≤ 5
      · rw [if_pos hr]
        refine ⟨rfl, ?_⟩
        intro cid' hcid' i c hc hid
        simp only [Option.some.injEq] at hcid'
        subst hcid'
        simp only [getElem?_updateCounselors, hc, Option.map_some', hid, if_true,
          averageRating_allRatings]
      · rw [if_neg hr] at hok
        simp [Response.status] at hok

/-- The exact mean of the ratings of a counselor with a rated session, all
ratings in `1..5`, lies in `1..5`. -/
theorem meanRatingOf_bounds {ss : List ChatSession} {cid : Nat}
    (hne : allRatings ss cid ≠ []) (h : ∀ x ∈ allRatings ss cid, 1 ≤ x ∧ x ≤ 5) :
    1 ≤ meanRatingOf ss cid ∧ meanRatingOf ss cid ≤ 5 := by
  have hq := quotient_bounds _ hne h
  have heq : meanRatingOf ss cid =
      (((allRatings ss cid).sum : Int) : ℚ) / ((allRatings ss cid).length : ℚ) := by
    unfold meanRatingOf
    rw [allRatings_eq_map]
    simp [List.length_map, Function.comp_def]
  rw [heq]
  exact hq

/-- C14, as stated, fails: counselor 7 has two sessions rated 5, and user 1
rates the closed session 10, also of counselor 7, with 4. The rate answers
200; the sum of the three ratings divided by their number is 14/3, and the
rating stored for counselor 7 is the double nearest to it,
5254199565265579 / 2 ^ 50 (printed 4.666666666666667), which is not 14/3. -/
theorem rateSession_exact_mean_counterexample :
    (rateSession alice 10 { rating := 4, feedback := none } threeSessionsStore).1 =
      .ok "Session rated successfully" ∧
    meanRatingOf
      (rateSession alice 10 { rating := 4, feedback := none } threeSessionsStore).2.sessions
      7 = 14 / 3 ∧
    (rateSession alice 10 { rating := 4, feedback := none }
      threeSessionsStore).2.counselors.map (fun c => (c.id, c.rating)) =
      [(7, 5254199565265579 / 2 ^ 50), (8, 0)] ∧
    (5254199565265579 / 2 ^ 50 : ℚ) ≠ 14 / 3 := by
  decide!

/-- C14, amended: after a successful rate with rating `r` of a session whose
assigned counselor is `cid`, the session is one of the counselor's rated
sessions, with value `r`, and every counselor row with id `cid` is what it
was except for `rating`, which is the double nearest to the sum of the
ratings of the counselor's rated sessions in the new session table divided by
their number: a function of the session table alone, whatever the rating
stored before. With the stored ratings in `1..5` the exact quotient lies in
`1..5` and the stored double is within `2 ^ (-51)` of it. -/
theorem rateSession_sets_nearest_double (caller : Caller) (id : Nat) (req : RateReq)
    (σ : Store) (session : ChatSession) (cid : Nat)
    (hfind : findSession σ id caller.userId = some session)
    (hcid : session.counselorId = some cid)
    (hok : (rateSession caller id req σ).1.status = 200) :
    session.status = .closed ∧ 1 ≤ req.rating ∧ req.rating ≤ 5 ∧
    (∃ s ∈ ratedSessionsOf (rateSession caller id req σ).2.sessions cid,
      s.id = id ∧ s.rating = some req.rating) ∧
    (∀ (i : Nat) (c : Counselor), σ.counselors[i]? = some c → c.id = cid →
      (rateSession caller id req σ).2.counselors[i]? =
        some { c with rating := nearestDouble (
          (((ratedSessionsOf (rateSession caller id req σ).2.sessions cid).map
              (fun s => ((s.rating.getD 0 : Int) : ℚ))).sum) /
            ((ratedSessionsOf (rateSession caller id req σ).2.sessions cid).length : ℚ)) }) ∧
    (RatingsInRange σ.sessions →
      1 ≤ meanRatingOf (rateSession caller id req σ).2.sessions cid ∧
      meanRatingOf (rateSession caller id req σ).2.sessions cid ≤ 5 ∧
      |nearestDouble (meanRatingOf (rateSession caller id req σ).2.sessions cid) -
        meanRatingOf (rateSession caller id req σ).2.sessions cid| ≤ 1 / 2 ^ 51) := by
  obtain ⟨hv, hclosed⟩ := rateSession_ok_inv hfind hok
  have heff := rateSession_effect hfind hok
  have hr : 1 ≤ req.rating ∧ req.rating ≤ 5 := by
    unfold validRate at hv
    simp only [Bool.and_eq_true, decide_eq_true_eq] at hv
    exact ⟨hv.1.1, hv.1.2⟩
  refine ⟨hclosed, hr.1, hr.2, ?_, ?_, ?_⟩
  · obtain ⟨hmem, hid, _⟩ := findSession_mem hfind
    refine ⟨setRating req session, ?_, ?_, ?_⟩
    · rw [heff.1]
      unfold ratedSessionsOf
      rw [List.mem_filter]
      refine ⟨mem_updateSessions.mpr ⟨session, hmem, by simp⟩, ?_⟩
      simp [setRating, hcid]
    · simpa [setRating] using hid
    · simp [setRating]
  · intro i c hc hid
    exact heff.2 cid hcid i c hc hid
  · intro hdata
    have hb := allRatings_after_update (findSession_mem hfind).1 hcid hv hdata
    rw [heff.1]
    have hm := meanRatingOf_bounds hb.1 hb.2
    exact ⟨hm.1, hm.2, nearestDouble_error hm.1 hm.2⟩

/-- C14, amended, at a concrete store: counselor 7 has a session rated 5; user
1 rates session 10, also of counselor 7, with 4, and the counselor's rating
becomes (5 + 4) / 2, which is a double. -/
theorem rateSession_sets_nearest_double_witness :
    (rateSession alice 10 { rating := 4, feedback := none } ratingStore).2.counselors[0]? =
      some { sampleCounselor 7 2 .available with rating := 9 / 2 } :=
  have h := rateSession_sets_nearest_double alice 10 { rating := 4, feedback := none }
    ratingStore closedSession 7 (by decide) rfl (by decide!)
  (h.2.2.2.2.1 0 { sampleCounselor 7 2 .available with rating := 5 } rfl rfl).trans
    (by decide!)

/-- C15, as stated, fails: user 1 rates the closed session 10 with 5 and then
again with 1. The second call answers 200, not an invalid-state error; the
session's rating goes from 5 to 1, its feedback is replaced, and the
counselor's average goes from 5 to 3. -/
theorem rateSession_twice_counterexample :
    ratedStore.sessions.map (fun s => (s.rating, s.feedback)) =
      [(some 5, some "great"), (some 5, none)] ∧
    ratedStore.counselors.map (fun c => c.rating) = [5, 0] ∧
    (rateSession alice 10 { rating := 1, feedback := some "bad" } ratedStore).1 =
      .ok "Session rated successfully" ∧
    (rateSession alice 10 { rating := 1, feedback := some "bad" } ratedStore).2.sessions.map
      (fun s => (s.rating, s.feedback)) = [(some 1, some "bad"), (some 5, none)] ∧
    (rateSession alice 10 { rating := 1, feedback := some "bad" } ratedStore).2.counselors.map
      (fun c => c.rating) = [3, 0] := by
  decide!

/-- C15, amended: a valid rate of a closed session is served in the same way
whether or not the session already carries a rating. With the stored ratings
in `1..5` it answers 200, every session row with that id gets the new rating (and the new
feedback when the request carries one) and remains otherwise unchanged, and
every row of the session's counselor gets the mean of the counselor's ratings
in the new session table, as a JS number: the double nearest to it. -/
theorem rateSession_again_overwrites (caller : Caller) (id : Nat) (req : RateReq)
    (σ : Store) (session : ChatSession)
    (hfind : findSession σ id caller.userId = some session)
    (hclosed : session.status = .closed)
    (hv : validRate req = true)
    (hdata : RatingsInRange σ.sessions) :
    (rateSession caller id req σ).1 = .ok "Session rated successfully" ∧
    (∀ (i : Nat) (s : ChatSession), σ.sessions[i]? = some s →
      (s.id = session.id →
        (rateSession caller id req σ).2.sessions[i]? =
          some { s with rating := some req.rating,
                        feedback := if req.feedback = none then s.feedback
                                    else req.feedback }) ∧
      (s.id ≠ session.id → (rateSession caller id req σ).2.sessions[i]? = some s)) ∧
    (∀ cid, session.counselorId = some cid →
      ∀ (i : Nat) (c : Counselor), σ.counselors[i]? = some c → c.id = cid →
        (rateSession caller id req σ).2.counselors[i]? =
          some { c with rating :=
            nearestDouble (meanRatingOf (rateSession caller id req σ).2.sessions cid) }) := by
  have hresp := rateSession_ok hfind hclosed hv hdata
  have hok : (rateSession caller id req σ).1.status = 200 := by rw [hresp]; rfl
  have heff := rateSession_effect hfind hok
  refine ⟨hresp, ?_, heff.2⟩
  intro i s hs
  rw [heff.1, getElem?_updateSessions, hs, Option.map_some']
  constructor
  · intro hid
    rw [if_pos hid]
    cases hf : req.feedback <;> simp [setRating, hf]
  · intro hid
    rw [if_neg hid]

/-- C15, amended, at a concrete store: the second rate of session 10. -/
theorem rateSession_again_overwrites_witness :
    (rateSession alice 10 { rating := 1, feedback := some "bad" } ratedStore).1 =
      .ok "Session rated successfully" :=
  (rateSession_again_overwrites alice 10 { rating := 1, feedback := some "bad" }
    ratedStore
    { closedSession with rating := some 5, feedback := some "great" }
    (by decide!) rfl (by decide) (by decide!)).1

/-! ## Closed sessions -/

/-- The session table after `POST /sessions`: unchanged, or one row longer. -/
theorem createSession_sessions (env : Env) (caller : Caller) (req : CreateReq) (σ : Store) :
    (createSession env caller req σ).2.sessions = σ.sessions ∨
    ∃ s, (createSession env caller req σ).2.sessions = σ.sessions ++ [s] := by
  unfold createSession
  split
  · exact Or.inl rfl
  · split
    · exact Or.inl rfl
    · split
      · exact Or.inr ⟨_, rfl⟩
      · exact Or.inr ⟨_, rfl⟩

/-- No association is registered: the `findAll` of the message fetch throws. -/
theorem findAllMessages_none (σ : Store) (id : Nat) (before : Option Nat) (limit : Nat) :
    findAllMessages σ id before limit = none := by
  simp [findAllMessages, registeredAssociations]

/-- The message fetch writes nothing. -/
theorem getMessages_store (caller : Caller) (id : Nat) (q : MessagesQuery) (σ : Store) :
    (getMessages caller id q σ).2 = σ := by
  unfold getMessages
  split
  · rfl
  · split
    · rfl
    · simp only [findAllMessages_none]

/-- The message fetch leaves the session table as it is. -/
theorem getMessages_sessions (caller : Caller) (id : Nat) (q : MessagesQuery) (σ : Store) :
    (getMessages caller id q σ).2.sessions = σ.sessions := by
  rw [getMessages_store]

/-- The send leaves the session table as it is. -/
theorem sendMessage_sessions (env : Env) (caller : Caller) (id : Nat) (req : SendReq)
    (σ : Store) :
    (sendMessage env caller id req σ).2.sessions = σ.sessions := by
  unfold sendMessage
  split
  · rfl
  · split
    · rfl
    · split <;> rfl

/-- The session table after a rate: unchanged, or rating and feedback written. -/
theorem rateSession_sessions (caller : Caller) (id : Nat) (req : RateReq) (σ : Store) :
    (rateSession caller id req σ).2.sessions = σ.sessions ∨
    ∃ sid, (rateSession caller id req σ).2.sessions =
      updateSessions (setRating req) sid σ.sessions := by
  unfold rateSession
  split
  · exact Or.inl rfl
  · split
    · exact Or.inl rfl
    · split
      · exact Or.inl rfl
      · split
        · exact Or.inr ⟨_, rfl⟩
        · split
          · exact Or.inr ⟨_, rfl⟩
          · dsimp only
            split
            · exact Or.inr ⟨_, rfl⟩
            · exact Or.inr ⟨_, rfl⟩

/-- The session table after an end: unchanged, or the rows with the id of a
session that was not closed are closed. -/
theorem endSession_sessions (env : Env) (caller : Caller) (id : Nat) (σ : Store) :
    (endSession env caller id σ).2.sessions = σ.sessions ∨
    ∃ session ∈ σ.sessions, session.status ≠ .closed ∧
      (endSession env caller id σ).2.sessions =
        updateSessions
          (fun s => { s with status := .closed, endedAt := some env.now,
                             duration := some (durationMinutes env.now session.startedAt) })
          session.id σ.sessions := by
  cases hfind : findSession σ id caller.userId with
  | none =>
    left
    unfold endSession
    rw [hfind]
  | some session =>
    by_cases hclosed : session.status = .closed
    · left
      rw [endSession_of_closed hfind hclosed]
    · right
      refine ⟨session, (findSession_mem hfind).1, hclosed, ?_⟩
      rw [endSession_of_open hfind hclosed]

/-- Two rows of a table with a primary key that share their id are one row. -/
theorem eq_of_id_eq {ss : List ChatSession} (hpk : (ss.map (fun s => s.id)).Nodup)
    {s t : ChatSession} (hs : s ∈ ss) (ht : t ∈ ss) (h : s.id = t.id) : s = t :=
  List.inj_on_of_nodup_map hpk hs ht h

/-- C16: no request takes a session out of `closed`. In a session table with
a primary key, the row of a closed session is, after any request of any
caller with any arguments, still a row of that session with status `closed`
and the same `endedAt` and `duration`. -/
theorem closed_session_stays_closed (env : Env) (caller : Caller) (op : Op) (σ : Store)
    (hpk : (σ.sessions.map (fun s => s.id)).Nodup)
    (i : Nat) (s : ChatSession) (hs : σ.sessions[i]? = some s)
    (hclosed : s.status = .closed) :
    ∃ s', (step env caller op σ).2.sessions[i]? = some s' ∧
      s'.id = s.id ∧ s'.userId = s.userId ∧ s'.counselorId = s.counselorId ∧
      s'.status = .closed ∧ s'.endedAt = s.endedAt ∧ s'.duration = s.duration := by
  have hsame : ∀ ss : List ChatSession, ss = σ.sessions →
      ∃ s', ss[i]? = some s' ∧
        s'.id = s.id ∧ s'.userId = s.userId ∧ s'.counselorId = s.counselorId ∧
        s'.status = .closed ∧ s'.endedAt = s.endedAt ∧ s'.duration = s.duration := by
    intro ss hss
    exact ⟨s, by rw [hss, hs], rfl, rfl, rfl, hclosed, rfl, rfl⟩
  have hi : i < σ.sessions.length := by
    rcases List.getElem?_eq_some.mp hs with ⟨h, _⟩
    exact h
  cases op with
  | createSession req =>
    rcases createSession_sessions env caller req σ with h | ⟨t, h⟩
    · exact hsame _ h
    · refine ⟨s, ?_, rfl, rfl, rfl, hclosed, rfl, rfl⟩
      show (createSession env caller req σ).2.sessions[i]? = some s
      rw [h, List.getElem?_append_left hi, hs]
  | getMessages id q => exact hsame _ (getMessages_sessions caller id q σ)
  | sendMessage id req =>
    exact hsame _ (sendMessage_sessions env caller id req σ)
  | rateSession id req =>
    rcases rateSession_sessions caller id req σ with h | ⟨sid, h⟩
    · exact hsame _ h
    · refine ⟨if s.id = sid then setRating req s else s, ?_, ?_⟩
      · show (rateSession caller id req σ).2.sessions[i]? = _
        rw [h, getElem?_updateSessions, hs, Option.map_some']
      · split
        · exact ⟨rfl, rfl, rfl, hclosed, rfl, rfl⟩
        · exact ⟨rfl, rfl, rfl, hclosed, rfl, rfl⟩
  | endSession id =>
    rcases endSession_sessions env caller id σ with h | ⟨session, hmem, hopen, h⟩
    · exact hsame _ h
    · have hne : s.id ≠ session.id := by
        intro hid
        have := eq_of_id_eq hpk (List.getElem?_mem hs) hmem hid
        rw [this] at hclosed
        exact hopen hclosed
      refine ⟨s, ?_, rfl, rfl, rfl, hclosed, rfl, rfl⟩
      show (endSession env caller id σ).2.sessions[i]? = some s
      rw [h, getElem?_updateSessions, hs, Option.map_some', if_neg hne]

/-- C16 at a concrete store: session 10 is closed and user 1 asks to end it
again; the row keeps its status, `endedAt` and `duration`. -/
theorem closed_session_stays_closed_witness :
    ∃ s', (step sampleEnv alice (.endSession 10) closedStore).2.sessions[0]? = some s' ∧
      s'.id = 10 ∧ s'.userId = 1 ∧ s'.counselorId = some 7 ∧
      s'.status = .closed ∧ s'.endedAt = some 2700000 ∧ s'.duration = some 45 :=
  closed_session_stays_closed sampleEnv alice (.endSession 10) closedStore
    (by decide) 0 closedSession (by decide) rfl

/-! ## Shapes of the stores the routes leave -/

/-- The counselor the matcher finds is a row of the table that is online,
available and active. -/
theorem findAvailableCounselor_some {σ : Store} {c : Counselor}
    (h : findAvailableCounselor σ = some c) :
    c ∈ σ.counselors ∧ c.isOnline = true ∧ c.status = .available ∧ c.isActive = true := by
  unfold findAvailableCounselor at h
  have hmem := List.mem_of_mem_head? (Option.mem_def.mpr h)
  rw [List.mem_insertionSort, List.mem_filter] at hmem
  obtain ⟨hc, he⟩ := hmem
  unfold Counselor.isEligible at he
  simp only [Bool.and_eq_true, beq_iff_eq] at he
  exact ⟨hc, he.1.1, he.1.2, he.2⟩

/-- The three outcomes of `POST /sessions`: nothing written, a counselor
assigned, or a waiting session. -/
theorem createSession_cases (env : Env) (caller : Caller) (req : CreateReq) (σ : Store) :
    (createSession env caller req σ).2 = σ ∨
    (∃ c, findAvailableCounselor σ = some c ∧
      createSession env caller req σ =
        (.sessionCreated (newSession env caller.userId (some c.id) req) true,
          { σ with
            sessions := σ.sessions ++ [newSession env caller.userId (some c.id) req]
            messages := σ.messages ++ [welcomeMessage env c.id]
            counselors :=
              updateCounselors (fun k => { k with status := .busy }) c.id σ.counselors })) ∨
    (findAvailableCounselor σ = none ∧
      createSession env caller req σ =
        (.sessionCreated (newSession env caller.userId none req) false,
          { σ with sessions := σ.sessions ++ [newSession env caller.userId none req] })) := by
  unfold createSession
  split
  · exact Or.inl rfl
  · split
    · exact Or.inl rfl
    · split
      · next c hc => exact Or.inr (Or.inl ⟨c, hc, rfl⟩)
      · next hc => exact Or.inr (Or.inr ⟨hc, rfl⟩)

/-- The outcomes of a send: nothing written, or the message appended to an
active session of the caller. -/
theorem sendMessage_cases (env : Env) (caller : Caller) (id : Nat) (req : SendReq)
    (σ : Store) :
    (sendMessage env caller id req σ).2 = σ ∨
    (∃ session, findSession σ id caller.userId = some session ∧
      session.status = .active ∧
      sendMessage env caller id req σ =
        (.messageSent (newMessage env caller.userId id req),
          { σ with
            messages := σ.messages ++ [newMessage env caller.userId id req]
            emitted := σ.emitted ++
              [{ room := "chat:" ++ toString id
                 event := "chat:message"
                 senderId := caller.userId
                 message := req.message
                 messageType := req.messageType.getD .text
                 timestamp := env.now }] })) := by
  unfold sendMessage
  split
  · exact Or.inl rfl
  · split
    · exact Or.inl rfl
    · next session hfind =>
      split
      · exact Or.inl rfl
      · next hst =>
        exact Or.inr ⟨session, hfind, by simpa using hst, rfl⟩

/-- The counselor table after a rate: unchanged, or a rating written. -/
theorem rateSession_counselors (caller : Caller) (id : Nat) (req : RateReq) (σ : Store) :
    (rateSession caller id req σ).2.counselors = σ.counselors ∨
    ∃ (q : ℚ) (cid : Nat), (rateSession caller id req σ).2.counselors =
      updateCounselors (fun c => { c with rating := q }) cid σ.counselors := by
  unfold rateSession
  split
  · exact Or.inl rfl
  · split
    · exact Or.inl rfl
    · split
      · exact Or.inl rfl
      · split
        · exact Or.inl rfl
        · split
          · exact Or.inl rfl
          · dsimp only
            split
            · exact Or.inr ⟨_, _, rfl⟩
            · exact Or.inl rfl

/-! ## The capacity invariant -/

/-- The capacity condition, counselor id by counselor id. -/
theorem counselorCapacity_iff (holds : SessionStatus → Bool) (σ : Store) :
    CounselorCapacity holds σ ↔
      ∀ cid, 0 < σ.sessions.countP (holdsCounselor holds cid) →
        (∀ c ∈ σ.counselors, c.id = cid → c.status = .busy) ∧
        σ.sessions.countP (holdsCounselor holds cid) ≤ 1 := by
  unfold CounselorCapacity
  constructor
  · intro h cid hpos
    obtain ⟨s, hs, hp⟩ := List.countP_pos_iff.mp hpos
    unfold holdsCounselor at hp
    simp only [Bool.and_eq_true, beq_iff_eq] at hp
    exact h s hs hp.1 cid (Option.mem_def.mpr hp.2)
  · intro h s hs hh cid hcid
    apply h cid
    apply List.countP_pos_iff.mpr
    exact ⟨s, hs, by simp [holdsCounselor, hh, Option.mem_def.mp hcid]⟩

theorem countP_map_le {p : ChatSession → Bool} {f : ChatSession → ChatSession}
    (hf : ∀ s, p (f s) = true → p s = true) (l : List ChatSession) :
    (l.map f).countP p ≤ l.countP p := by
  induction l with
  | nil => simp
  | cons x xs ih =>
    simp only [List.map_cons, List.countP_cons]
    by_cases h : p (f x) = true
    · simp only [h, hf x h, if_true]
      omega
    · by_cases h' : p x = true
      · rw [if_neg h, if_pos h']
        omega
      · rw [if_neg h, if_neg h']
        omega

theorem countP_map_lt {p : ChatSession → Bool} {f : ChatSession → ChatSession}
    (hf : ∀ s, p (f s) = true → p s = true) {l : List ChatSession} {s : ChatSession}
    (hs : s ∈ l) (hp : p s = true) (hn : p (f s) = false) :
    (l.map f).countP p < l.countP p := by
  induction l with
  | nil => cases hs
  | cons x xs ih =>
    simp only [List.map_cons, List.countP_cons]
    have hle := countP_map_le hf xs
    rcases List.mem_cons.mp hs with hx | hmem
    · subst hx
      simp only [hp, hn, if_true]
      simp only [Bool.false_eq_true, if_false]
      omega
    · have := ih hmem
      by_cases h : p (f x) = true
      · simp only [h, hf x h, if_true]
        omega
      · by_cases h' : p x = true
        · rw [if_neg h, if_pos h']
          omega
        · rw [if_neg h, if_neg h']
          omega

theorem mem_updateCounselors {f : Counselor → Counselor} {id : Nat}
    {cs : List Counselor} {c' : Counselor} :
    c' ∈ updateCounselors f id cs ↔
      ∃ c ∈ cs, (if c.id = id then f c else c) = c' := by
  simp [updateCounselors]

/-- A request that adds no holder of a counselor and keeps the status of the
counselors that are still held preserves the capacity condition. -/
theorem capacity_of_le {holds : SessionStatus → Bool} {σ σ' : Store}
    (h : CounselorCapacity holds σ)
    (hcount : ∀ cid, σ'.sessions.countP (holdsCounselor holds cid) ≤
      σ.sessions.countP (holdsCounselor holds cid))
    (hrows : ∀ cid, 0 < σ'.sessions.countP (holdsCounselor holds cid) →
      ∀ c' ∈ σ'.counselors, c'.id = cid →
        ∃ c ∈ σ.counselors, c.id = cid ∧ c.status = c'.status) :
    CounselorCapacity holds σ' := by
  rw [counselorCapacity_iff] at h ⊢
  intro cid hpos
  have hpos₀ : 0 < σ.sessions.countP (holdsCounselor holds cid) :=
    lt_of_lt_of_le hpos (hcount cid)
  obtain ⟨hbusy, hle⟩ := h cid hpos₀
  refine ⟨?_, le_trans (hcount cid) hle⟩
  intro c' hc' hid
  obtain ⟨c, hc, hcid, hst⟩ := hrows cid hpos c' hc' hid
  rw [← hst]
  exact hbusy c hc hcid

/-- The rows of an update that writes neither `status` nor `counselorId`
hold the same counselors. -/
theorem countP_updateSessions_eq {holds : SessionStatus → Bool}
    {f : ChatSession → ChatSession}
    (hf : ∀ s, (f s).status = s.status ∧ (f s).counselorId = s.counselorId)
    (sid cid : Nat) (ss : List ChatSession) :
    (updateSessions f sid ss).countP (holdsCounselor holds cid) =
      ss.countP (holdsCounselor holds cid) := by
  unfold updateSessions
  rw [List.countP_map]
  congr 1
  funext s
  simp only [Function.comp, holdsCounselor]
  split
  · rw [(hf s).1, (hf s).2]
  · rfl

theorem capacity_createSession (env : Env) (caller : Caller) (req : CreateReq) (σ : Store)
    (h : CounselorCapacity isNotClosed σ) :
    CounselorCapacity isNotClosed (createSession env caller req σ).2 := by
  rcases createSession_cases env caller req σ with hsame | ⟨c, hc, heq⟩ | ⟨_, heq⟩
  · rw [hsame]
    exact h
  · rw [heq]
    obtain ⟨hmem, _, havail, _⟩ := findAvailableCounselor_some hc
    rw [counselorCapacity_iff] at h ⊢
    intro cid hpos
    have hnew : holdsCounselor isNotClosed cid
        (newSession env caller.userId (some c.id) req) = decide (c.id = cid) := by
      have hact : isNotClosed .active = true := rfl
      by_cases hid : c.id = cid <;> simp [holdsCounselor, newSession, hact, hid]
    simp only [List.countP_append, List.countP_cons, List.countP_nil, hnew] at hpos ⊢
    by_cases hid : c.id = cid
    · have hzero : σ.sessions.countP (holdsCounselor isNotClosed cid) = 0 := by
        by_contra hne
        have hb := (h cid (Nat.pos_of_ne_zero hne)).1 c hmem hid
        rw [havail] at hb
        cases hb
      constructor
      · intro c' hc' hid'
        obtain ⟨k, hk, hkc⟩ := mem_updateCounselors.mp hc'
        by_cases hkid : k.id = c.id
        · rw [if_pos hkid] at hkc
          rw [← hkc]
        · rw [if_neg hkid] at hkc
          subst hkc
          exact absurd (hid'.trans hid.symm) hkid
      · rw [hzero]
        simp [hid]
    · simp only [hid, decide_False, Bool.false_eq_true, if_false, Nat.add_zero,
        Nat.zero_add] at hpos ⊢
      obtain ⟨hbusy, hle⟩ := h cid hpos
      refine ⟨?_, hle⟩
      intro c' hc' hid'
      obtain ⟨k, hk, hkc⟩ := mem_updateCounselors.mp hc'
      by_cases hkid : k.id = c.id
      · rw [if_pos hkid] at hkc
        rw [← hkc]
      · rw [if_neg hkid] at hkc
        subst hkc
        exact hbusy _ hk hid'
  · rw [heq]
    apply capacity_of_le h
    · intro cid
      simp [holdsCounselor, newSession]
    · intro cid _ c' hc' hid
      exact ⟨c', hc', hid, rfl⟩

theorem capacity_getMessages (caller : Caller) (id : Nat) (q : MessagesQuery) (σ : Store)
    (h : CounselorCapacity isNotClosed σ) :
    CounselorCapacity isNotClosed (getMessages caller id q σ).2 := by
  rw [getMessages_store]
  exact h

theorem capacity_sendMessage (env : Env) (caller : Caller) (id : Nat) (req : SendReq)
    (σ : Store) (h : CounselorCapacity isNotClosed σ) :
    CounselorCapacity isNotClosed (sendMessage env caller id req σ).2 := by
  rcases sendMessage_cases env caller id req σ with hsame | ⟨session, _, _, heq⟩
  · rw [hsame]
    exact h
  · rw [heq]
    exact h

theorem capacity_rateSession (caller : Caller) (id : Nat) (req : RateReq) (σ : Store)
    (h : CounselorCapacity isNotClosed σ) :
    CounselorCapacity isNotClosed (rateSession caller id req σ).2 := by
  apply capacity_of_le h
  · intro cid
    rcases rateSession_sessions caller id req σ with hs | ⟨sid, hs⟩
    · rw [hs]
    · rw [hs]
      refine le_of_eq (countP_updateSessions_eq ?_ _ _ _)
      intro s
      exact ⟨rfl, rfl⟩
  · intro cid _ c' hc' hid
    rcases rateSession_counselors caller id req σ with hk | ⟨q, kid, hk⟩
    · rw [hk] at hc'
      exact ⟨c', hc', hid, rfl⟩
    · rw [hk] at hc'
      obtain ⟨k, hkm, hkc⟩ := mem_updateCounselors.mp hc'
      refine ⟨k, hkm, ?_, ?_⟩
      · rw [← hid, ← hkc]
        split <;> rfl
      · rw [← hkc]
        split <;> rfl

theorem capacity_endSession (env : Env) (caller : Caller) (id : Nat) (σ : Store)
    (h : CounselorCapacity isNotClosed σ) :
    CounselorCapacity isNotClosed (endSession env caller id σ).2 := by
  cases hfind : findSession σ id caller.userId with
  | none =>
    unfold endSession
    rw [hfind]
    exact h
  | some session =>
    by_cases hclosed : session.status = .closed
    · rw [endSession_of_closed hfind hclosed]
      exact h
    · rw [endSession_of_open hfind hclosed]
      have hmono : ∀ cid (s : ChatSession),
          holdsCounselor isNotClosed cid
            (if s.id = session.id then
              { s with status := .closed, endedAt := some env.now,
                       duration := some (durationMinutes env.now session.startedAt) }
             else s) = true →
          holdsCounselor isNotClosed cid s = true := by
        intro cid s
        split
        · simp [holdsCounselor, isNotClosed]
        · exact fun hs => hs
      have hcount : ∀ cid,
          (updateSessions
            (fun s => { s with status := .closed, endedAt := some env.now,
                               duration := some (durationMinutes env.now session.startedAt) })
            session.id σ.sessions).countP (holdsCounselor isNotClosed cid) ≤
          σ.sessions.countP (holdsCounselor isNotClosed cid) :=
        fun cid => countP_map_le (hmono cid) σ.sessions
      apply capacity_of_le h hcount
      intro cid hpos c' hc' hid
      cases hcid : session.counselorId with
      | none =>
        simp only [hcid] at hc'
        exact ⟨c', hc', hid, rfl⟩
      | some freed =>
        simp only [hcid] at hc'
        obtain ⟨k, hkm, hkc⟩ := mem_updateCounselors.mp hc'
        by_cases hkid : k.id = freed
        · exfalso
          have hcf : cid = freed := by
            rw [← hid, ← hkc, if_pos hkid]
            exact hkid
          subst hcf
          have hheld : holdsCounselor isNotClosed cid session = true := by
            simp [holdsCounselor, isNotClosed, hclosed, hcid]
          have hmem := (findSession_mem hfind).1
          have hlt : (updateSessions
              (fun s => { s with status := .closed, endedAt := some env.now,
                                 duration := some (durationMinutes env.now session.startedAt) })
              session.id σ.sessions).countP (holdsCounselor isNotClosed cid) <
              σ.sessions.countP (holdsCounselor isNotClosed cid) := by
            apply countP_map_lt (hmono cid) hmem hheld
            simp [holdsCounselor, isNotClosed]
          have hle := ((counselorCapacity_iff _ _).mp h cid
            (List.countP_pos_iff.mpr ⟨session, hmem, hheld⟩)).2
          simp only at hpos
          omega
        · rw [if_neg hkid] at hkc
          subst hkc
          exact ⟨k, hkm, hid, rfl⟩

/-- Every request preserves the capacity condition over the sessions that are
not closed. -/
theorem capacity_step (env : Env) (caller : Caller) (op : Op) (σ : Store)
    (h : CounselorCapacity isNotClosed σ) :
    CounselorCapacity isNotClosed (step env caller op σ).2 := by
  cases op with
  | createSession req => exact capacity_createSession env caller req σ h
  | getMessages id q => exact capacity_getMessages caller id q σ h
  | sendMessage id req => exact capacity_sendMessage env caller id req σ h
  | rateSession id req => exact capacity_rateSession caller id req σ h
  | endSession id => exact capacity_endSession env caller id σ h

theorem capacity_reachable {σ₀ σ : Store} (h₀ : CounselorCapacity isNotClosed σ₀)
    (hr : Reachable σ₀ σ) : CounselorCapacity isNotClosed σ := by
  induction hr with
  | start => exact h₀
  | next env caller op _ ih => exact capacity_step env caller op _ ih

theorem two_le_countP {p : ChatSession → Bool} {l : List ChatSession} {s t : ChatSession}
    (hs : s ∈ l) (ht : t ∈ l) (hne : s ≠ t) (hps : p s = true) (hpt : p t = true) :
    2 ≤ l.countP p := by
  rw [List.countP_eq_length_filter]
  have hs' : s ∈ l.filter p := List.mem_filter.mpr ⟨hs, hps⟩
  have ht' : t ∈ l.filter p := List.mem_filter.mpr ⟨ht, hpt⟩
  match hf : l.filter p with
  | [] => rw [hf] at hs'; cases hs'
  | [a] =>
    rw [hf] at hs' ht'
    rw [List.mem_singleton] at hs' ht'
    exact absurd (hs'.trans ht'.symm) hne
  | _ :: _ :: _ => simp

/-- The capacity condition over the sessions that are not closed gives the
one over the active sessions. -/
theorem capacity_active_of_notClosed {σ : Store} (h : CounselorCapacity isNotClosed σ) :
    CounselorCapacity isActiveStatus σ := by
  intro s hs hact cid hcid
  have hst : s.status = .active := by simpa [isActiveStatus] using hact
  have hopen : isNotClosed s.status = true := by rw [hst]; rfl
  obtain ⟨hbusy, hle⟩ := h s hs hopen cid hcid
  refine ⟨hbusy, le_trans (List.countP_mono_left ?_) hle⟩
  intro t _ ht
  simp only [holdsCounselor, isActiveStatus, Bool.and_eq_true, beq_iff_eq] at ht
  simp [holdsCounselor, isNotClosed, ht.1, ht.2]

/-- C17, as stated, fails: in `escalatedStore` counselor 7 is busy and is
referenced by one active session (and by an escalated one). User 1 ends the
escalated session; counselor 7 becomes available while session 11 is still
active with it, and the next session, of user 3, is assigned counselor 7 as
well. -/
theorem capacity_active_counterexample :
    CounselorCapacity isActiveStatus escalatedStore ∧
    ¬ CounselorCapacity isActiveStatus
        (step sampleEnv alice (.endSession 10) escalatedStore).2 ∧
    (step sampleEnv carol (.createSession emptyCreateReq)
        (step sampleEnv alice (.endSession 10) escalatedStore).2).2.sessions.map
      (fun s => (s.userId, s.status, s.counselorId)) =
      [(1, .closed, some 7), (2, .active, some 7), (3, .active, some 7)] := by
  decide

/-- C17, amended: the capacity condition taken over the sessions that are not
closed (waiting, active or escalated) is an invariant of the step relation.
Starting from a store where every counselor referenced by such a session is
busy and is referenced by at most one such session, the same holds in every
reachable store; so does the condition over the active sessions, and no two
sessions of different users are active with the same counselor. -/
theorem capacity_invariant (σ₀ σ : Store)
    (h₀ : CounselorCapacity isNotClosed σ₀) (hr : Reachable σ₀ σ) :
    CounselorCapacity isNotClosed σ ∧
    CounselorCapacity isActiveStatus σ ∧
    ∀ s ∈ σ.sessions, ∀ t ∈ σ.sessions,
      s.status = .active → t.status = .active → s.userId ≠ t.userId →
      ∀ cid, s.counselorId = some cid → t.counselorId ≠ some cid := by
  have h := capacity_reachable h₀ hr
  refine ⟨h, capacity_active_of_notClosed h, ?_⟩
  intro s hs t ht hsa hta hu cid hsc htc
  have hne : s ≠ t := fun heq => hu (by rw [heq])
  have hps : holdsCounselor isNotClosed cid s = true := by
    simp [holdsCounselor, isNotClosed, hsa, hsc]
  have hpt : holdsCounselor isNotClosed cid t = true := by
    simp [holdsCounselor, isNotClosed, hta, htc]
  have h2 := two_le_countP hs ht hne hps hpt
  have h1 := (h s hs (by rw [hsa]; rfl) cid (Option.mem_def.mpr hsc)).2
  omega

/-- C17, amended, at a concrete run: from `activeStore`, user 2 creates a
session (and is assigned counselor 8), then user 1 ends session 10. -/
theorem capacity_invariant_witness :
    CounselorCapacity isNotClosed
      (step sampleEnv alice (.endSession 10)
        (step sampleEnv bob (.createSession emptyCreateReq) activeStore).2).2 :=
  (capacity_invariant activeStore _ (by decide)
    (Reachable.next sampleEnv alice (.endSession 10)
      (Reachable.next sampleEnv bob (.createSession emptyCreateReq) Reachable.start))).1

/-! ## Sessions of other users -/

/-- In a table with a primary key, the lookup by id and owner finds nothing
for a session that another user owns. -/
theorem findSession_foreign {σ : Store} {s : ChatSession} {userId : Nat}
    (hpk : (σ.sessions.map (fun s => s.id)).Nodup) (hs : s ∈ σ.sessions)
    (hother : s.userId ≠ userId) : findSession σ s.id userId = none := by
  cases hfind : findSession σ s.id userId with
  | none => rfl
  | some t =>
    obtain ⟨ht, hid, hu⟩ := findSession_mem hfind
    have := eq_of_id_eq hpk ht hs hid
    rw [this] at hu
    exact absurd hu hother

/-- The lookup by id and owner finds nothing when no session has the id. -/
theorem findSession_absent {σ : Store} {id userId : Nat}
    (h : ∀ t ∈ σ.sessions, t.id ≠ id) : findSession σ id userId = none := by
  cases hfind : findSession σ id userId with
  | none => rfl
  | some t =>
    obtain ⟨ht, hid, _⟩ := findSession_mem hfind
    exact absurd hid (h t ht)

/-- A request on a session that the lookup does not find writes nothing and
is answered by the validators or with 404. -/
theorem step_not_found (env : Env) (caller : Caller) (op : Op) (σ : Store) (id : Nat)
    (hop : op.sessionId = some id) (hfind : findSession σ id caller.userId = none) :
    step env caller op σ =
      (if op.valid env = true then .error 404 "Session not found" else .validationErrors,
        σ) := by
  cases op with
  | createSession req => simp [Op.sessionId] at hop
  | getMessages id' q =>
    simp only [Op.sessionId, Option.some.injEq] at hop
    subst hop
    simp only [step, getMessages, Op.valid, hfind]
    by_cases hv : validMessagesQuery q = true <;> simp [hv]
  | sendMessage id' req =>
    simp only [Op.sessionId, Option.some.injEq] at hop
    subst hop
    simp only [step, sendMessage, Op.valid, hfind]
    by_cases hv : validSend env req = true <;> simp [hv]
  | rateSession id' req =>
    simp only [Op.sessionId, Option.some.injEq] at hop
    subst hop
    simp only [step, rateSession, Op.valid, hfind]
    by_cases hv : validRate req = true <;> simp [hv]
  | endSession id' =>
    simp only [Op.sessionId, Option.some.injEq] at hop
    subst hop
    simp only [step, endSession, Op.valid, hfind]
    simp

/-- C18, as stated, fails: session 10 exists and belongs to user 1. Each of
the four requests of user 2 on it is answered with 404 "Session not found",
the very answer the same request gets for the absent session 99, and not
with a Forbidden (403) answer. -/
theorem foreign_session_counterexample :
    (step sampleEnv bob (.endSession 10) activeStore).1 =
      .error 404 "Session not found" ∧
    (step sampleEnv bob (.getMessages 10 { limit := none, before := none }) activeStore).1 =
      .error 404 "Session not found" ∧
    (step sampleEnv bob
      (.sendMessage 10 { message := "hi", messageType := none, attachmentUrl := none })
      activeStore).1 = .error 404 "Session not found" ∧
    (step sampleEnv bob (.rateSession 10 { rating := 4, feedback := none }) activeStore).1 =
      .error 404 "Session not found" ∧
    (step sampleEnv bob (.endSession 99) activeStore).1 =
      (step sampleEnv bob (.endSession 10) activeStore).1 ∧
    (step sampleEnv bob (.endSession 10) activeStore).1.status ≠ 403 := by
  decide

/-- C18, amended: in a session table with a primary key, a request (fetch,
send, rate or end) on a session that exists but belongs to another user
writes nothing and is answered with 404 "Session not found" (with 400 when it
fails the validators of its route), which is the answer the same request gets
when no session has that id. -/
theorem foreign_session_not_found (env : Env) (caller : Caller) (op : Op) (σ : Store)
    (s : ChatSession)
    (hpk : (σ.sessions.map (fun s => s.id)).Nodup)
    (hs : s ∈ σ.sessions) (hother : s.userId ≠ caller.userId)
    (hop : op.sessionId = some s.id) :
    (step env caller op σ).2 = σ ∧
    (step env caller op σ).1 =
      (if op.valid env = true then .error 404 "Session not found"
       else .validationErrors) ∧
    ((step env caller op σ).1.status = 404 ∨ (step env caller op σ).1.status = 400) ∧
    (∀ σ' : Store, (∀ t ∈ σ'.sessions, t.id ≠ s.id) →
      (step env caller op σ').1 = (step env caller op σ).1) := by
  have h := step_not_found env caller op σ s.id hop (findSession_foreign hpk hs hother)
  refine ⟨by rw [h], by rw [h], ?_, ?_⟩
  · rw [h]
    cases op.valid env
    · right; rfl
    · left; rfl
  · intro σ' habs
    rw [h, step_not_found env caller op σ' s.id hop (findSession_absent habs)]

/-- C18, amended, at a concrete store: user 2 asks to end session 10 of
user 1. -/
theorem foreign_session_not_found_witness :
    (step sampleEnv bob (.endSession 10) activeStore).2 = activeStore ∧
    (step sampleEnv bob (.endSession 10) activeStore).1 = .error 404 "Session not found" :=
  have h := foreign_session_not_found sampleEnv bob (.endSession 10) activeStore
    (sampleSession 10 1 (some 7) .active) (by decide) (by decide) (by decide) rfl
  ⟨h.1, h.2.1⟩

/-! ## The message fetch -/

/-- The message fetch of a session the lookup finds, with a valid query,
answers 500. -/
theorem getMessages_found {caller : Caller} {id : Nat} {q : MessagesQuery} {σ : Store}
    {session : ChatSession} (hv : validMessagesQuery q = true)
    (hfind : findSession σ id caller.userId = some session) :
    getMessages caller id q σ = (.error 500 "Internal server error", σ) := by
  simp [getMessages, hv, hfind, findAllMessages_none]

/-- No message fetch answers 200. -/
theorem getMessages_status (caller : Caller) (id : Nat) (q : MessagesQuery) (σ : Store) :
    (getMessages caller id q σ).1.status ≠ 200 := by
  by_cases hv : validMessagesQuery q = true
  · cases hfind : findSession σ id caller.userId with
    | none => simp [getMessages, hv, hfind, Response.status]
    | some session => simp [getMessages_found hv hfind, Response.status]
  · simp [getMessages, hv, Response.status]

/-- C19, the code at the failing input: user 1 owns session 10 of
`activeStore`, whose message 20 was sent by counselor 7 and is unread. The
fetch with `limit = 1` answers 500 and message 20 is still unread; and for
every caller, session, query and store the fetch answers another status than
200 and leaves the store, so every `isRead`, as it was. -/
theorem fetch_marks_nothing_read :
    getMessages alice 10 { limit := some 1, before := none } activeStore =
      (.error 500 "Internal server error", activeStore) ∧
    (getMessages alice 10 { limit := some 1, before := none } activeStore).2.messages[0]? =
      some { sampleMessage 20 10 7 .counselor with isRead := false } ∧
    ∀ (caller : Caller) (id : Nat) (q : MessagesQuery) (σ : Store),
      (getMessages caller id q σ).1.status ≠ 200 ∧ (getMessages caller id q σ).2 = σ :=
  ⟨by decide, by decide,
    fun caller id q σ => ⟨getMessages_status caller id q σ, getMessages_store caller id q σ⟩⟩

/-! ## Sender kinds -/

/-- C20, as stated, fails: user 2, authenticated with a user token, creates a
session and is assigned counselor 8. The request creates the welcome message,
whose sender kind is `counselor`, not the kind of the caller. -/
theorem sender_kind_counterexample :
    bob.userType = .user ∧
    (step sampleEnv bob (.createSession emptyCreateReq) activeStore).2.messages.drop
      activeStore.messages.length = [welcomeMessage sampleEnv 8] ∧
    (welcomeMessage sampleEnv 8).senderType = .counselor ∧
    (welcomeMessage sampleEnv 8).senderType ≠ bob.userType.senderType := by
  decide

/-- C20, amended: the sender kind of a created message is fixed by the route,
not read from the caller's account kind. A request creates at most one
message; the message of a send has sender kind `user` and the caller as
sender, which is the caller's kind when the caller holds a user account; the
welcome message of a session creation has sender kind `counselor` and the
assigned counselor as sender. No other request creates a message. -/
theorem created_message_sender (env : Env) (caller : Caller) (op : Op) (σ : Store) :
    σ.messages.length ≤ (step env caller op σ).2.messages.length ∧
    (step env caller op σ).2.messages.length ≤ σ.messages.length + 1 ∧
    ∀ m ∈ (step env caller op σ).2.messages.drop σ.messages.length,
      (∃ id req, op = .sendMessage id req ∧ m.sessionId = id ∧
        m.senderType = .user ∧ m.senderId = caller.userId ∧
        (caller.userType = .user → m.senderType = caller.userType.senderType)) ∨
      (∃ req c, op = .createSession req ∧ findAvailableCounselor σ = some c ∧
        m.sessionId = env.newSessionId ∧
        m.senderType = .counselor ∧ m.senderId = c.id) := by
  cases op with
  | createSession req =>
    rcases createSession_cases env caller req σ with h | ⟨c, hc, h⟩ | ⟨_, h⟩
    · simp [step, h]
    · simp only [step, h, List.length_append, List.length_singleton, List.drop_left,
        List.mem_singleton]
      refine ⟨by omega, le_refl _, ?_⟩
      intro m hm
      right
      exact ⟨req, c, rfl, hc, by rw [hm]; rfl, by rw [hm]; rfl, by rw [hm]; rfl⟩
    · simp [step, h]
  | getMessages id q =>
    have h := getMessages_store caller id q σ
    simp [step, h]
  | sendMessage id req =>
    rcases sendMessage_cases env caller id req σ with h | ⟨_, _, _, h⟩
    · simp [step, h]
    · simp only [step, h, List.length_append, List.length_singleton, List.drop_left,
        List.mem_singleton]
      refine ⟨by omega, le_refl _, ?_⟩
      intro m hm
      left
      refine ⟨id, req, rfl, by rw [hm]; rfl, by rw [hm]; rfl, by rw [hm]; rfl, ?_⟩
      intro hu
      rw [hm, hu]
      rfl
  | rateSession id req =>
    have hmsg : (rateSession caller id req σ).2.messages = σ.messages := by
      unfold rateSession
      split
      · rfl
      · split
        · rfl
        · split
          · rfl
          · split
            · rfl
            · split
              · rfl
              · dsimp only
                split <;> rfl
    simp [step, hmsg]
  | endSession id =>
    have hmsg : (endSession env caller id σ).2.messages = σ.messages := by
      unfold endSession
      split
      · rfl
      · split
        · rfl
        · split <;> rfl
    simp [step, hmsg]

/-! ## The outcomes of `POST /sessions` -/

theorem createSession_invalid {env : Env} {caller : Caller} {req : CreateReq} {σ : Store}
    (hv : validCreate req = false) :
    createSession env caller req σ = (.validationErrors, σ) := by
  simp [createSession, hv]

theorem createSession_existing {env : Env} {caller : Caller} {req : CreateReq} {σ : Store}
    {existing : ChatSession} (hv : validCreate req = true)
    (hopen : findOpenSession σ caller.userId = some existing) :
    createSession env caller req σ =
      (.existingSession "You already have an active chat session" existing.id, σ) := by
  simp [createSession, hv, hopen]

theorem createSession_assigned {env : Env} {caller : Caller} {req : CreateReq} {σ : Store}
    {c : Counselor} (hv : validCreate req = true)
    (hopen : findOpenSession σ caller.userId = none)
    (hc : findAvailableCounselor σ = some c) :
    createSession env caller req σ =
      (.sessionCreated (newSession env caller.userId (some c.id) req) true,
        { σ with
          sessions := σ.sessions ++ [newSession env caller.userId (some c.id) req]
          messages := σ.messages ++ [welcomeMessage env c.id]
          counselors :=
            updateCounselors (fun k => { k with status := .busy }) c.id σ.counselors }) := by
  simp [createSession, hv, hopen, hc]

theorem createSession_waiting {env : Env} {caller : Caller} {req : CreateReq} {σ : Store}
    (hv : validCreate req = true)
    (hopen : findOpenSession σ caller.userId = none)
    (hc : findAvailableCounselor σ = none) :
    createSession env caller req σ =
      (.sessionCreated (newSession env caller.userId none req) false,
        { σ with sessions := σ.sessions ++ [newSession env caller.userId none req] }) := by
  simp [createSession, hv, hopen, hc]

/-- The duplicate check finds nothing exactly when the caller has no session
that is waiting or active. -/
theorem findOpenSession_none_iff {σ : Store} {userId : Nat} :
    findOpenSession σ userId = none ↔ σ.sessions.countP (isOpenFor userId) = 0 := by
  unfold findOpenSession
  rw [List.find?_eq_none, List.countP_eq_zero]
  constructor
  · intro h s hs hp
    exact h s hs (by simpa [isOpenFor] using hp)
  · intro h s hs hp
    exact h s hs (by simpa [isOpenFor] using hp)

/-! ## The invariant on open sessions -/

theorem oneOpenSession_iff (σ : Store) :
    OneOpenSession σ ↔ ∀ u, σ.sessions.countP (isOpenFor u) ≤ 1 := by
  constructor
  · intro h u
    by_cases hz : σ.sessions.countP (isOpenFor u) = 0
    · omega
    · obtain ⟨s, hs, hp⟩ := List.countP_pos_iff.mp (Nat.pos_of_ne_zero hz)
      have hu : s.userId = u := by
        simp only [isOpenFor, Bool.and_eq_true, beq_iff_eq] at hp
        exact hp.1
      rw [← hu]
      exact h s hs
  · intro h s _
    exact h s.userId

theorem countP_updateSessions_of_eq {p : ChatSession → Bool}
    {f : ChatSession → ChatSession} (hf : ∀ s, p (f s) = p s)
    (sid : Nat) (ss : List ChatSession) :
    (updateSessions f sid ss).countP p = ss.countP p := by
  unfold updateSessions
  rw [List.countP_map]
  congr 1
  funext s
  simp only [Function.comp]
  split
  · exact hf s
  · rfl

theorem oneOpen_step (env : Env) (caller : Caller) (op : Op) (σ : Store)
    (h : ∀ u, σ.sessions.countP (isOpenFor u) ≤ 1) :
    ∀ u, (step env caller op σ).2.sessions.countP (isOpenFor u) ≤ 1 := by
  intro u
  cases op with
  | createSession req =>
    show (createSession env caller req σ).2.sessions.countP (isOpenFor u) ≤ 1
    by_cases hv : validCreate req = true
    · cases hopen : findOpenSession σ caller.userId with
      | some existing =>
        rw [createSession_existing hv hopen]
        exact h u
      | none =>
        have hzero := findOpenSession_none_iff.mp hopen
        have hnew : ∀ cid : Option Nat,
            (σ.sessions ++ [newSession env caller.userId cid req]).countP (isOpenFor u) ≤ 1 := by
          intro cid
          rw [List.countP_append]
          by_cases hu : caller.userId = u
          · rw [← hu, hzero]
            simp only [List.countP_cons, List.countP_nil]
            split <;> omega
          · have : isOpenFor u (newSession env caller.userId cid req) = false := by
              simp [isOpenFor, newSession, hu]
            simp only [List.countP_cons, List.countP_nil, this]
            have := h u
            simp only [Bool.false_eq_true, if_false]
            omega
        cases hc : findAvailableCounselor σ with
        | some c =>
          rw [createSession_assigned hv hopen hc]
          exact hnew (some c.id)
        | none =>
          rw [createSession_waiting hv hopen hc]
          exact hnew none
    · rw [createSession_invalid (by simpa using hv)]
      exact h u
  | getMessages id q =>
    show (getMessages caller id q σ).2.sessions.countP (isOpenFor u) ≤ 1
    rw [getMessages_sessions]
    exact h u
  | sendMessage id req =>
    show (sendMessage env caller id req σ).2.sessions.countP (isOpenFor u) ≤ 1
    rw [sendMessage_sessions]
    exact h u
  | rateSession id req =>
    show (rateSession caller id req σ).2.sessions.countP (isOpenFor u) ≤ 1
    rcases rateSession_sessions caller id req σ with hs | ⟨sid, hs⟩
    · rw [hs]
      exact h u
    · rw [hs]
      refine le_trans (le_of_eq (countP_updateSessions_of_eq ?_ _ _)) (h u)
      intro s
      rfl
  | endSession id =>
    show (endSession env caller id σ).2.sessions.countP (isOpenFor u) ≤ 1
    rcases endSession_sessions env caller id σ with hs | ⟨session, _, _, hs⟩
    · rw [hs]
      exact h u
    · rw [hs]
      refine le_trans (countP_map_le ?_ σ.sessions) (h u)
      intro s
      split
      · simp [isOpenFor]
      · exact fun hp => hp

/-- C1: at most one waiting or active session per user is an invariant of the
step relation. Starting from a store where every user has at most one session
with status waiting or active, every reachable store has, for every user, at
most one such session. -/
theorem one_open_session_invariant (σ₀ σ : Store)
    (h₀ : OneOpenSession σ₀) (hr : Reachable σ₀ σ) :
    OneOpenSession σ ∧
    ∀ u, (σ.sessions.filter (fun s =>
      s.userId = u ∧ (s.status = .waiting ∨ s.status = .active))).length ≤ 1 := by
  have h : ∀ u, σ.sessions.countP (isOpenFor u) ≤ 1 := by
    induction hr with
    | start => exact (oneOpenSession_iff _).mp h₀
    | next env caller op _ ih => exact oneOpen_step env caller op _ ih
  refine ⟨(oneOpenSession_iff _).mpr h, ?_⟩
  intro u
  have hu := h u
  rw [List.countP_eq_length_filter] at hu
  have hfun : (fun s : ChatSession =>
      decide (s.userId = u ∧ (s.status = .waiting ∨ s.status = .active))) = isOpenFor u := by
    funext s
    rw [Bool.eq_iff_iff]
    simp [isOpenFor]
  rw [hfun]
  exact hu

/-- C1 at a concrete run: from `activeStore`, user 1 asks for a second
session (refused), user 2 creates one, and user 1 ends session 10. -/
theorem one_open_session_invariant_witness :
    OneOpenSession
      (step sampleEnv alice (.endSession 10)
        (step sampleEnv bob (.createSession emptyCreateReq)
          (step sampleEnv alice (.createSession emptyCreateReq) activeStore).2).2).2 :=
  (one_open_session_invariant activeStore _ (by decide)
    (Reachable.next sampleEnv alice (.endSession 10)
      (Reachable.next sampleEnv bob (.createSession emptyCreateReq)
        (Reachable.next sampleEnv alice (.createSession emptyCreateReq)
          Reachable.start)))).1

/-! ## Session creation -/

/-- C2, as stated, fails for `escalated`: user 1 has the escalated session 10
and no other session; `POST /sessions` answers 201 and inserts a second
session for user 1. -/
theorem createSession_escalated_counterexample :
    escalatedStore.sessions.map (fun s => (s.userId, s.status)) =
      [(1, .escalated), (2, .active)] ∧
    (createSession sampleEnv alice emptyCreateReq escalatedStore).1.status = 201 ∧
    (createSession sampleEnv alice emptyCreateReq escalatedStore).2.sessions.map
      (fun s => (s.userId, s.status)) =
      [(1, .escalated), (2, .active), (1, .waiting)] := by
  decide

/-- C2, amended: for every caller who already has a session whose status is
waiting or active, `POST /sessions` answers 400 and leaves the whole store as
it was: no session is created, no message is inserted and no counselor
changes. -/
theorem createSession_duplicate_rejected (env : Env) (caller : Caller) (req : CreateReq)
    (σ : Store) (s : ChatSession) (hs : s ∈ σ.sessions)
    (howner : s.userId = caller.userId)
    (hopen : s.status = .waiting ∨ s.status = .active) :
    (createSession env caller req σ).1.status = 400 ∧
    (createSession env caller req σ).2 = σ ∧
    (validCreate req = true →
      ∃ existing ∈ σ.sessions, existing.userId = caller.userId ∧
        (createSession env caller req σ).1 =
          .existingSession "You already have an active chat session" existing.id) := by
  by_cases hv : validCreate req = true
  · cases hfind : findOpenSession σ caller.userId with
    | none =>
      exfalso
      have hz := findOpenSession_none_iff.mp hfind
      rw [List.countP_eq_zero] at hz
      apply hz s hs
      rcases hopen with h | h <;> simp [isOpenFor, howner, h]
    | some existing =>
      rw [createSession_existing hv hfind]
      refine ⟨rfl, rfl, fun _ => ⟨existing, ?_, ?_, rfl⟩⟩
      · exact List.mem_of_find?_eq_some hfind
      · have := List.find?_some hfind
        simp only [Bool.and_eq_true, beq_iff_eq] at this
        exact this.1
  · rw [createSession_invalid (by simpa using hv)]
    exact ⟨rfl, rfl, fun h => absurd h hv⟩

/-- C2, amended, at a concrete store: user 1, who has the active session 10,
asks for another session. -/
theorem createSession_duplicate_rejected_witness :
    (createSession sampleEnv alice emptyCreateReq activeStore).1.status = 400 ∧
    (createSession sampleEnv alice emptyCreateReq activeStore).2 = activeStore :=
  have h := createSession_duplicate_rejected sampleEnv alice emptyCreateReq activeStore
    (sampleSession 10 1 (some 7) .active) (by decide) rfl (Or.inr rfl)
  ⟨h.1, h.2.1⟩

/-- The counselor the matcher finds has the fewest total sessions among the
rows that are online, available and active. -/
theorem findAvailableCounselor_min {σ : Store} {c : Counselor}
    (h : findAvailableCounselor σ = some c) :
    ∀ k ∈ σ.counselors, k.isEligible = true → c.totalSessions ≤ k.totalSessions := by
  intro k hk he
  unfold findAvailableCounselor at h
  have hsorted := List.sorted_insertionSort (fun a b : Counselor =>
    a.totalSessions ≤ b.totalSessions) (σ.counselors.filter Counselor.isEligible)
  have hkm : k ∈ (σ.counselors.filter Counselor.isEligible).insertionSort
      (fun a b => a.totalSessions ≤ b.totalSessions) := by
    rw [List.mem_insertionSort, List.mem_filter]
    exact ⟨hk, he⟩
  obtain ⟨tl, htl⟩ := List.head?_eq_some_iff.mp h
  rw [htl] at hsorted hkm
  rcases List.mem_cons.mp hkm with hkc | hkt
  · rw [hkc]
  · exact List.rel_of_sorted_cons hsorted k hkt

/-- The matcher finds nothing exactly when no row is online, available and
active. -/
theorem findAvailableCounselor_none_iff {σ : Store} :
    findAvailableCounselor σ = none ↔ ∀ k ∈ σ.counselors, k.isEligible = false := by
  unfold findAvailableCounselor
  rw [List.head?_eq_none_iff]
  constructor
  · intro h k hk
    by_contra hne
    have hmem : k ∈ (σ.counselors.filter Counselor.isEligible).insertionSort
        (fun a b => a.totalSessions ≤ b.totalSessions) := by
      rw [List.mem_insertionSort, List.mem_filter]
      exact ⟨hk, by simpa using hne⟩
    rw [h] at hmem
    cases hmem
  · intro h
    have hnil : σ.counselors.filter Counselor.isEligible = [] := by
      rw [List.filter_eq_nil_iff]
      intro k hk
      rw [h k hk]
      simp
    rw [hnil]
    rfl

/-- A `POST /sessions` that answers with a created session passed the
validators and the duplicate check. -/
theorem createSession_created_inv {env : Env} {caller : Caller} {req : CreateReq}
    {σ : Store} {session : ChatSession} {assigned : Bool}
    (hok : (createSession env caller req σ).1 = .sessionCreated session assigned) :
    validCreate req = true ∧ findOpenSession σ caller.userId = none := by
  by_cases hv : validCreate req = true
  · refine ⟨hv, ?_⟩
    cases hfind : findOpenSession σ caller.userId with
    | none => rfl
    | some existing =>
      rw [createSession_existing hv hfind] at hok
      cases hok
  · rw [createSession_invalid (by simpa using hv)] at hok
    cases hok

/-- A created session with an assigned counselor: the matcher found one. -/
theorem createSession_created_assigned {env : Env} {caller : Caller} {req : CreateReq}
    {σ : Store} {session : ChatSession}
    (hok : (createSession env caller req σ).1 = .sessionCreated session true) :
    ∃ c, findAvailableCounselor σ = some c ∧
      session = newSession env caller.userId (some c.id) req ∧
      (createSession env caller req σ).2 =
        { σ with
          sessions := σ.sessions ++ [session]
          messages := σ.messages ++ [welcomeMessage env c.id]
          counselors :=
            updateCounselors (fun k => { k with status := .busy }) c.id σ.counselors } := by
  obtain ⟨hv, hopen⟩ := createSession_created_inv hok
  cases hc : findAvailableCounselor σ with
  | none =>
    rw [createSession_waiting hv hopen hc] at hok
    simp at hok
  | some c =>
    rw [createSession_assigned hv hopen hc] at hok ⊢
    simp only [Response.sessionCreated.injEq, and_true] at hok
    exact ⟨c, rfl, hok.symm, by rw [hok]⟩

/-- A created session without a counselor: the matcher found none. -/
theorem createSession_created_waiting {env : Env} {caller : Caller} {req : CreateReq}
    {σ : Store} {session : ChatSession}
    (hok : (createSession env caller req σ).1 = .sessionCreated session false) :
    findAvailableCounselor σ = none ∧
      session = newSession env caller.userId none req ∧
      (createSession env caller req σ).2 =
        { σ with sessions := σ.sessions ++ [session] } := by
  obtain ⟨hv, hopen⟩ := createSession_created_inv hok
  cases hc : findAvailableCounselor σ with
  | none =>
    rw [createSession_waiting hv hopen hc] at hok ⊢
    simp only [Response.sessionCreated.injEq, and_true] at hok
    exact ⟨rfl, hok.symm, by rw [hok]⟩
  | some c =>
    rw [createSession_assigned hv hopen hc] at hok
    simp at hok

/-- C3: when session creation assigns a counselor, the assigned counselor is
a row that was online, available and active before the call, and its
`totalSessions` is at most that of every row that was online, available and
active. -/
theorem matcher_picks_least_busy (env : Env) (caller : Caller) (req : CreateReq)
    (σ : Store) (session : ChatSession)
    (hok : (createSession env caller req σ).1 = .sessionCreated session true) :
    ∃ c ∈ σ.counselors, session.counselorId = some c.id ∧
      c.isOnline = true ∧ c.status = .available ∧ c.isActive = true ∧
      ∀ k ∈ σ.counselors, k.isOnline = true → k.status = .available → k.isActive = true →
        c.totalSessions ≤ k.totalSessions := by
  obtain ⟨c, hc, hs, _⟩ := createSession_created_assigned hok
  obtain ⟨hmem, h1, h2, h3⟩ := findAvailableCounselor_some hc
  refine ⟨c, hmem, by rw [hs]; rfl, h1, h2, h3, ?_⟩
  intro k hk hk1 hk2 hk3
  exact findAvailableCounselor_min hc k hk (by simp [Counselor.isEligible, hk1, hk2, hk3])

/-- C3 at a concrete store: counselor 7 is busy and counselor 8 available, so
the session of user 2 is assigned counselor 8. -/
theorem matcher_picks_least_busy_witness :
    ∃ c ∈ activeStore.counselors,
      (newSession sampleEnv 2 (some 8) emptyCreateReq).counselorId = some c.id ∧
      c.isOnline = true ∧ c.status = .available ∧ c.isActive = true ∧
      ∀ k ∈ activeStore.counselors,
        k.isOnline = true → k.status = .available → k.isActive = true →
        c.totalSessions ≤ k.totalSessions :=
  matcher_picks_least_busy sampleEnv bob emptyCreateReq activeStore
    (newSession sampleEnv 2 (some 8) emptyCreateReq) (by decide)

/-- C4: a successful session creation produces a session that is waiting with
no counselor exactly when no counselor is online, available and active;
otherwise the session is active and its counselor is the one the matcher
selects. The session is the last row of the new session table. -/
theorem createSession_status (env : Env) (caller : Caller) (req : CreateReq)
    (σ : Store) (session : ChatSession) (assigned : Bool)
    (hok : (createSession env caller req σ).1 = .sessionCreated session assigned) :
    (createSession env caller req σ).1.status = 201 ∧
    (createSession env caller req σ).2.sessions = σ.sessions ++ [session] ∧
    ((session.status = .waiting ∧ session.counselorId = none) ↔
      ¬ ∃ c ∈ σ.counselors,
        c.isOnline = true ∧ c.status = .available ∧ c.isActive = true) ∧
    ((∃ c ∈ σ.counselors, c.isOnline = true ∧ c.status = .available ∧ c.isActive = true) →
      session.status = .active ∧
      ∃ c, findAvailableCounselor σ = some c ∧ session.counselorId = some c.id) := by
  refine ⟨by rw [hok]; rfl, ?_⟩
  cases assigned with
  | true =>
    obtain ⟨c, hc, hs, hstore⟩ := createSession_created_assigned hok
    obtain ⟨hmem, h1, h2, h3⟩ := findAvailableCounselor_some hc
    refine ⟨by rw [hstore], ?_, ?_⟩
    · constructor
      · intro h
        rw [hs] at h
        simp [newSession] at h
      · intro h
        exact absurd ⟨c, hmem, h1, h2, h3⟩ h
    · intro _
      exact ⟨by rw [hs]; rfl, c, hc, by rw [hs]; rfl⟩
  | false =>
    obtain ⟨hc, hs, hstore⟩ := createSession_created_waiting hok
    have hnone := findAvailableCounselor_none_iff.mp hc
    have hno : ¬ ∃ c ∈ σ.counselors,
        c.isOnline = true ∧ c.status = .available ∧ c.isActive = true := by
      rintro ⟨c, hmem, h1, h2, h3⟩
      have := hnone c hmem
      simp [Counselor.isEligible, h1, h2, h3] at this
    refine ⟨by rw [hstore], ?_, ?_⟩
    · constructor
      · intro _
        exact hno
      · intro _
        rw [hs]
        exact ⟨rfl, rfl⟩
    · intro h
      exact absurd h hno

/-- C4 at a concrete store: the session of user 2 in `activeStore`, where
counselor 8 is available, is active with counselor 8. -/
theorem createSession_status_witness :
    (createSession sampleEnv bob emptyCreateReq activeStore).2.sessions =
      activeStore.sessions ++ [newSession sampleEnv 2 (some 8) emptyCreateReq] ∧
    (newSession sampleEnv 2 (some 8) emptyCreateReq).status = .active :=
  have h := createSession_status sampleEnv bob emptyCreateReq activeStore
    (newSession sampleEnv 2 (some 8) emptyCreateReq) true (by decide)
  ⟨h.2.1, (h.2.2.2 ⟨sampleCounselor 8 3 .available, by decide, rfl, rfl, rfl⟩).1⟩

/-- C5: a successful session creation that assigns counselor `cid` leaves
every counselor row with that id equal to what it was except for `status`,
which is `busy`, and leaves every other counselor row unchanged; when no
counselor is online, available and active, the counselor table is
unchanged. -/
theorem createSession_counselor_frame (env : Env) (caller : Caller) (req : CreateReq)
    (σ : Store) (session : ChatSession) (assigned : Bool)
    (hok : (createSession env caller req σ).1 = .sessionCreated session assigned) :
    (∀ cid, session.counselorId = some cid →
      (createSession env caller req σ).2.counselors.length = σ.counselors.length ∧
      (∃ c ∈ σ.counselors, c.id = cid ∧ c.isEligible = true) ∧
      ∀ (i : Nat) (k : Counselor), σ.counselors[i]? = some k →
        (k.id = cid →
          (createSession env caller req σ).2.counselors[i]? =
            some { k with status := .busy }) ∧
        (k.id ≠ cid → (createSession env caller req σ).2.counselors[i]? = some k)) ∧
    ((∀ k ∈ σ.counselors, k.isEligible = false) →
      (createSession env caller req σ).2.counselors = σ.counselors) := by
  cases assigned with
  | true =>
    obtain ⟨c, hc, hs, hstore⟩ := createSession_created_assigned hok
    obtain ⟨hmem, h1, h2, h3⟩ := findAvailableCounselor_some hc
    rw [hstore]
    constructor
    · intro cid hcid
      have hid : c.id = cid := by
        rw [hs] at hcid
        simpa [newSession] using hcid
      subst hid
      refine ⟨by simp [updateCounselors],
        ⟨c, hmem, rfl, by simp [Counselor.isEligible, h1, h2, h3]⟩, ?_⟩
      intro i k hk
      simp only [getElem?_updateCounselors, hk, Option.map_some']
      constructor
      · intro h; rw [if_pos h]
      · intro h; rw [if_neg h]
    · intro hnone
      have := hnone c hmem
      simp [Counselor.isEligible, h1, h2, h3] at this
  | false =>
    obtain ⟨_, hs, hstore⟩ := createSession_created_waiting hok
    rw [hstore]
    constructor
    · intro cid hcid
      rw [hs] at hcid
      simp [newSession] at hcid
    · intro _
      rfl

/-- C5 at a concrete store: the session of user 2 takes counselor 8, which
becomes busy; counselor 7 is untouched. -/
theorem createSession_counselor_frame_witness :
    (createSession sampleEnv bob emptyCreateReq activeStore).2.counselors[0]? =
      some (sampleCounselor 7 0 .busy) ∧
    (createSession sampleEnv bob emptyCreateReq activeStore).2.counselors[1]? =
      some { sampleCounselor 8 3 .available with status := .busy } :=
  have h := (createSession_counselor_frame sampleEnv bob emptyCreateReq activeStore
    (newSession sampleEnv 2 (some 8) emptyCreateReq) true (by decide)).1 8 rfl
  ⟨(h.2.2 0 _ rfl).2 (by decide), (h.2.2 1 _ rfl).1 rfl⟩

/-- C6: after a successful session creation with a fresh session id, the
messages of the new session are exactly the welcome message when a counselor
was assigned, and there is none when the session was created waiting, in
which case the message table is unchanged: no welcome message exists for a
session without an assigned counselor. -/
theorem createSession_messages (env : Env) (caller : Caller) (req : CreateReq)
    (σ : Store) (session : ChatSession) (assigned : Bool)
    (hfresh : ∀ m ∈ σ.messages, m.sessionId ≠ env.newSessionId)
    (hok : (createSession env caller req σ).1 = .sessionCreated session assigned) :
    session.id = env.newSessionId ∧
    (assigned = true →
      ∃ cid, session.counselorId = some cid ∧ session.status = .active ∧
        (createSession env caller req σ).2.messages.filter
          (fun m => m.sessionId = session.id) = [welcomeMessage env cid]) ∧
    (assigned = false →
      session.counselorId = none ∧ session.status = .waiting ∧
      (createSession env caller req σ).2.messages = σ.messages ∧
      (createSession env caller req σ).2.messages.filter
        (fun m => m.sessionId = session.id) = []) := by
  have hnil : σ.messages.filter (fun m => m.sessionId = env.newSessionId) = [] := by
    rw [List.filter_eq_nil_iff]
    intro m hm
    simpa using hfresh m hm
  cases assigned with
  | true =>
    obtain ⟨c, _, hs, hstore⟩ := createSession_created_assigned hok
    have hid : session.id = env.newSessionId := by rw [hs]; rfl
    refine ⟨hid, ?_, by simp⟩
    intro _
    refine ⟨c.id, by rw [hs]; rfl, by rw [hs]; rfl, ?_⟩
    rw [hstore, hid]
    simp only [List.filter_append, hnil, List.nil_append]
    simp [List.filter_cons, welcomeMessage]
  | false =>
    obtain ⟨_, hs, hstore⟩ := createSession_created_waiting hok
    have hid : session.id = env.newSessionId := by rw [hs]; rfl
    refine ⟨hid, by simp, ?_⟩
    intro _
    refine ⟨by rw [hs]; rfl, by rw [hs]; rfl, by rw [hstore], ?_⟩
    rw [hstore, hid]
    exact hnil

/-- C6 at a concrete store: the session of user 2, assigned counselor 8, has
the welcome message as its only message. -/
theorem createSession_messages_witness :
    (createSession sampleEnv bob emptyCreateReq activeStore).2.messages.filter
      (fun m => m.sessionId = (newSession sampleEnv 2 (some 8) emptyCreateReq).id) =
      [welcomeMessage sampleEnv 8] :=
  have h := createSession_messages sampleEnv bob emptyCreateReq activeStore
    (newSession sampleEnv 2 (some 8) emptyCreateReq) true (by decide) (by decide)
  match h.2.1 rfl with
  | ⟨_, hcid, _, hmsgs⟩ => by
    have h8 : some 8 = some _ := hcid
    simp only [Option.some.injEq] at h8
    rw [← h8] at hmsgs
    exact hmsgs

/-- C7, as stated, fails: the welcome message that the session creation of
user 2 inserts has message kind `text`, not `system`, and is recorded as
sent by the counselor. -/
theorem greeting_kind_counterexample :
    (createSession sampleEnv bob emptyCreateReq activeStore).2.messages.drop
      activeStore.messages.length = [welcomeMessage sampleEnv 8] ∧
    (welcomeMessage sampleEnv 8).messageType = .text ∧
    (welcomeMessage sampleEnv 8).messageType ≠ .system ∧
    (welcomeMessage sampleEnv 8).senderType = .counselor ∧
    (welcomeMessage sampleEnv 8).senderId = 8 := by
  decide

/-- C7, amended: the welcome message inserted when a counselor is assigned is
recorded as an ordinary text message of the assigned counselor: message kind
`text`, sender kind `counselor`, the counselor's id as sender, and the fixed
welcome text. -/
theorem greeting_is_counselor_text (env : Env) (caller : Caller) (req : CreateReq)
    (σ : Store) (session : ChatSession)
    (hok : (createSession env caller req σ).1 = .sessionCreated session true) :
    ∃ cid g, session.counselorId = some cid ∧
      (createSession env caller req σ).2.messages = σ.messages ++ [g] ∧
      g.sessionId = session.id ∧ g.messageType = .text ∧
      g.senderType = .counselor ∧ g.senderId = cid ∧
      g.message = "Hello! I'm here to help you today. How are you feeling?" ∧
      g.isRead = false ∧ g.sentAt = env.now := by
  obtain ⟨c, _, hs, hstore⟩ := createSession_created_assigned hok
  refine ⟨c.id, welcomeMessage env c.id, by rw [hs]; rfl, by rw [hstore], ?_,
    rfl, rfl, rfl, rfl, rfl, rfl⟩
  rw [hs]
  rfl

/-- C7, amended, at a concrete store: the welcome message of the session of
user 2. -/
theorem greeting_is_counselor_text_witness :
    ∃ cid g, (newSession sampleEnv 2 (some 8) emptyCreateReq).counselorId = some cid ∧
      (createSession sampleEnv bob emptyCreateReq activeStore).2.messages =
        activeStore.messages ++ [g] ∧
      g.sessionId = (newSession sampleEnv 2 (some 8) emptyCreateReq).id ∧
      g.messageType = .text ∧ g.senderType = .counselor ∧ g.senderId = cid ∧
      g.message = "Hello! I'm here to help you today. How are you feeling?" ∧
      g.isRead = false ∧ g.sentAt = sampleEnv.now :=
  greeting_is_counselor_text sampleEnv bob emptyCreateReq activeStore
    (newSession sampleEnv 2 (some 8) emptyCreateReq) (by decide)

/-! ## Sending and fetching messages -/

/-- C8: for a session of the caller and a valid message body, the send
answers 201 exactly when the session is active. When it is, one message with
that body and session id is appended to the message table; when the session
is waiting, closed or escalated the send answers 400 and writes nothing. -/
theorem sendMessage_iff_active (env : Env) (caller : Caller) (id : Nat) (req : SendReq)
    (σ : Store) (session : ChatSession)
    (hfind : findSession σ id caller.userId = some session)
    (hv : validSend env req = true) :
    ((sendMessage env caller id req σ).1.status = 201 ↔ session.status = .active) ∧
    (session.status = .active →
      ∃ m, (sendMessage env caller id req σ).1 = .messageSent m ∧
        (sendMessage env caller id req σ).2.messages = σ.messages ++ [m] ∧
        m.message = req.message ∧ m.sessionId = id ∧ m.senderId = caller.userId) ∧
    (session.status ≠ .active →
      (sendMessage env caller id req σ).1.status = 400 ∧
      (sendMessage env caller id req σ).2 = σ) := by
  by_cases hact : session.status = .active
  · have heq : sendMessage env caller id req σ =
        (.messageSent (newMessage env caller.userId id req),
          { σ with
            messages := σ.messages ++ [newMessage env caller.userId id req]
            emitted := σ.emitted ++
              [{ room := "chat:" ++ toString id
                 event := "chat:message"
                 senderId := caller.userId
                 message := req.message
                 messageType := req.messageType.getD .text
                 timestamp := env.now }] }) := by
      simp [sendMessage, hv, hfind, hact, newMessage]
    rw [heq]
    refine ⟨⟨fun _ => hact, fun _ => rfl⟩, ?_, fun h => absurd hact h⟩
    intro _
    exact ⟨_, rfl, rfl, rfl, rfl, rfl⟩
  · have heq : sendMessage env caller id req σ =
        (.error 400 "Cannot send messages in inactive session", σ) := by
      simp [sendMessage, hv, hfind, hact]
    rw [heq]
    refine ⟨⟨fun h => ?_, fun h => absurd h hact⟩, fun h => absurd h hact,
      fun _ => ⟨rfl, rfl⟩⟩
    simp [Response.status] at h

/-- C8 at a concrete store: user 1 sends "hello" in the active session 10. -/
theorem sendMessage_iff_active_witness :
    (sendMessage sampleEnv alice 10 helloReq activeStore).1.status = 201 :=
  (sendMessage_iff_active sampleEnv alice 10 helloReq activeStore
    (sampleSession 10 1 (some 7) .active) (by decide) (by decide)).1.mpr rfl

/-- C9, the code at the failing input: user 1 sends "hello" in the active
session 10 of `activeStore`, which answers 201 and stores the message, and
then fetches with no `before` cursor and the default limit. The fetch answers
500 and returns no list; and no fetch that follows a send, whatever the two
requests are, answers 200. -/
theorem fetch_after_send_fails :
    (sendMessage sampleEnv alice 10 helloReq activeStore).1 =
      .messageSent (newMessage sampleEnv 1 10 helloReq) ∧
    newMessage sampleEnv 1 10 helloReq ∈
      (sendMessage sampleEnv alice 10 helloReq activeStore).2.messages ∧
    (getMessages alice 10 { limit := none, before := none }
      (sendMessage sampleEnv alice 10 helloReq activeStore).2).1 =
      .error 500 "Internal server error" ∧
    ∀ (env : Env) (caller : Caller) (id : Nat) (req : SendReq) (q : MessagesQuery)
      (σ : Store),
      (getMessages caller id q (sendMessage env caller id req σ).2).1.status ≠ 200 :=
  ⟨by decide, by decide, by decide,
    fun env caller id req q σ => getMessages_status caller id q _⟩

/-! ## Duration of a session -/

/-- `durationMinutes` is the integer nearest to the elapsed minutes, a half
rounded up. -/
theorem durationMinutes_nearest (endedAt startedAt : Nat) :
    60000 * durationMinutes endedAt startedAt - 30000 ≤ (endedAt : Int) - startedAt ∧
    (endedAt : Int) - startedAt < 60000 * durationMinutes endedAt startedAt + 30000 := by
  unfold durationMinutes
  constructor <;> omega

/-- C10: the end of a session of the caller that is waiting, active or
escalated answers 200 and rewrites every row with the session's id (the
session itself among them) to status `closed`, `endedAt = now` and
`duration = d`, where `d` is the integer nearest to `(now - startedAt) / 60000`
with a half rounded up; an elapsed time of exactly 45 minutes gives 45. -/
theorem endSession_records_duration (env : Env) (caller : Caller) (id : Nat) (σ : Store)
    (session : ChatSession)
    (hfind : findSession σ id caller.userId = some session)
    (hopen : session.status = .waiting ∨ session.status = .active ∨
      session.status = .escalated) :
    (endSession env caller id σ).1.status = 200 ∧
    (∃ d : Int,
      60000 * d - 30000 ≤ (env.now : Int) - session.startedAt ∧
      (env.now : Int) - session.startedAt < 60000 * d + 30000 ∧
      ((env.now : Int) - session.startedAt = 45 * 60000 → d = 45) ∧
      (∃ i : Nat, σ.sessions[i]? = some session) ∧
      ∀ (i : Nat) (s : ChatSession), σ.sessions[i]? = some s → s.id = session.id →
        (endSession env caller id σ).2.sessions[i]? =
          some { s with status := .closed, endedAt := some env.now, duration := some d }) := by
  have hne : session.status ≠ .closed := by
    rcases hopen with h | h | h <;> simp [h]
  rw [endSession_of_open hfind hne]
  refine ⟨rfl, durationMinutes env.now session.startedAt,
    (durationMinutes_nearest _ _).1, (durationMinutes_nearest _ _).2, ?_, ?_, ?_⟩
  · intro h
    unfold durationMinutes
    omega
  · exact List.mem_iff_getElem?.mp (findSession_mem hfind).1
  · intro i s hs hid
    simp only [getElem?_updateSessions, hs, Option.map_some', if_pos hid]

/-- C10 at a concrete store: session 10 started at 0 and is ended at
2 700 000 ms, 45 minutes later. -/
theorem endSession_records_duration_witness :
    (endSession sampleEnv alice 10 activeStore).1.status = 200 ∧
    ∃ d : Int, d = 45 ∧
      (endSession sampleEnv alice 10 activeStore).2.sessions[0]? =
        some { sampleSession 10 1 (some 7) .active with
          status := .closed, endedAt := some 2700000, duration := some d } :=
  have h := endSession_records_duration sampleEnv alice 10 activeStore
    (sampleSession 10 1 (some 7) .active) (by decide) (Or.inr (Or.inl rfl))
  match h.2 with
  | ⟨d, _, _, h45, _, hrows⟩ => ⟨h.1, d, h45 (by decide), hrows 0 _ rfl rfl⟩

/-! ## Failures write nothing -/

/-- C29: a request that is answered with 400 or 404 (validators, session
absent or not owned by the caller, wrong session status, or a duplicate open
session) leaves the whole store, and so its sessions, messages and counselors,
as it was. -/
theorem failure_leaves_store (env : Env) (caller : Caller) (op : Op) (σ : Store)
    (h : (step env caller op σ).1.status = 400 ∨ (step env caller op σ).1.status = 404) :
    (step env caller op σ).2 = σ ∧
    (step env caller op σ).2.sessions = σ.sessions ∧
    (step env caller op σ).2.messages = σ.messages ∧
    (step env caller op σ).2.counselors = σ.counselors := by
  have hσ : (step env caller op σ).2 = σ := by
    cases op with
    | createSession req =>
      rcases createSession_cases env caller req σ with hs | ⟨c, _, heq⟩ | ⟨_, heq⟩
      · exact hs
      · simp [step, heq, Response.status] at h
      · simp [step, heq, Response.status] at h
    | getMessages id q =>
      exact getMessages_store caller id q σ
    | sendMessage id req =>
      rcases sendMessage_cases env caller id req σ with hs | ⟨_, _, _, heq⟩
      · exact hs
      · simp [step, heq, Response.status] at h
    | rateSession id req =>
      show (rateSession caller id req σ).2 = σ
      have h' : (rateSession caller id req σ).1.status = 400 ∨
          (rateSession caller id req σ).1.status = 404 := h
      by_cases hv : validRate req = true
      · cases hfind : findSession σ id caller.userId with
        | none => simp [rateSession, hv, hfind]
        | some session =>
          by_cases hclosed : session.status = .closed
          · exfalso
            cases hcid : session.counselorId with
            | none =>
              rw [rateSession_of_closed_none hfind hclosed hv hcid] at h'
              simp [Response.status] at h'
            | some cid =>
              cases hk : findCounselorByPk σ cid with
              | none =>
                rw [rateSession_of_closed_missing hfind hclosed hv hcid hk] at h'
                simp [Response.status] at h'
              | some k =>
                rw [rateSession_of_closed_some hfind hclosed hv hcid hk] at h'
                split at h' <;> simp [Response.status] at h'
          · rcases rateSession_of_open req hfind hclosed with he | he <;> rw [he]
      · simp [rateSession, hv]
    | endSession id =>
      show (endSession env caller id σ).2 = σ
      cases hfind : findSession σ id caller.userId with
      | none => simp [endSession, hfind]
      | some session =>
        by_cases hclosed : session.status = .closed
        · rw [endSession_of_closed hfind hclosed]
        · exfalso
          have h' : (endSession env caller id σ).1.status = 400 ∨
              (endSession env caller id σ).1.status = 404 := h
          rw [endSession_of_open hfind hclosed] at h'
          simp [Response.status] at h'
  rw [hσ]
  exact ⟨rfl, rfl, rfl, rfl⟩

/-- C29 at a concrete store: user 2 sends a message to session 10 of user 1
and is answered 404. -/
theorem failure_leaves_store_witness :
    (step sampleEnv bob (.sendMessage 10 helloReq) activeStore).2 = activeStore :=
  (failure_leaves_store sampleEnv bob (.sendMessage 10 helloReq) activeStore
    (Or.inr (by decide))).1

/-! ## The realtime relay -/

/-- C24: a send that answers 201 pushes exactly one event to the relay, a
`chat:message` to room `chat:<id>` that carries the caller's id, the message
body, the message type and the `sentAt` of the stored message; a send that
does not answer 201 (validators, session not found, session not active)
answers 400 or 404 and pushes nothing. -/
theorem sendMessage_relay (env : Env) (caller : Caller) (id : Nat) (req : SendReq)
    (σ : Store) :
    ((sendMessage env caller id req σ).1.status = 201 ∧
      ∃ m, (sendMessage env caller id req σ).1 = .messageSent m ∧
        m ∈ (sendMessage env caller id req σ).2.messages ∧
        (sendMessage env caller id req σ).2.emitted = σ.emitted ++
          [{ room := "chat:" ++ toString id
             event := "chat:message"
             senderId := caller.userId
             message := req.message
             messageType := m.messageType
             timestamp := m.sentAt }]) ∨
    (((sendMessage env caller id req σ).1.status = 400 ∨
        (sendMessage env caller id req σ).1.status = 404) ∧
      (sendMessage env caller id req σ).2.emitted = σ.emitted) := by
  by_cases hv : validSend env req = true
  · cases hfind : findSession σ id caller.userId with
    | none =>
      right
      simp [sendMessage, hv, hfind, Response.status]
    | some session =>
      by_cases hact : session.status = .active
      · left
        have heq := sendMessage_cases env caller id req σ
        rcases heq with hs | ⟨_, _, _, heq⟩
        · exfalso
          have hlen := congrArg (fun τ : Store => τ.messages.length) hs
          simp [sendMessage, hv, hfind, hact] at hlen
        · rw [heq]
          exact ⟨rfl, newMessage env caller.userId id req, rfl, by simp, rfl⟩
      · right
        simp [sendMessage, hv, hfind, hact, Response.status]
  · right
    simp [sendMessage, hv, Response.status]

/-! ## The average is well defined -/

/-- The session table a rate of a closed session leaves, whatever the answer. -/
theorem rateSession_closed_sessions {caller : Caller} {id : Nat} {req : RateReq}
    {σ : Store} {session : ChatSession}
    (hfind : findSession σ id caller.userId = some session)
    (hclosed : session.status = .closed) (hv : validRate req = true) :
    (rateSession caller id req σ).2.sessions =
      updateSessions (setRating req) session.id σ.sessions := by
  cases hcid : session.counselorId with
  | none => rw [rateSession_of_closed_none hfind hclosed hv hcid]
  | some cid =>
    cases hk : findCounselorByPk σ cid with
    | none => rw [rateSession_of_closed_missing hfind hclosed hv hcid hk]
    | some k =>
      rw [rateSession_of_closed_some hfind hclosed hv hcid hk]
      split <;> rfl

/-- C27: whenever the rate route recomputes the average of counselor `cid`
(a valid rate of a closed session of that counselor, whose row exists), the
list of the counselor's non-null ratings it reads contains the rating just
given, so its length, the divisor, is not zero; and when all stored ratings
lie in `1..5` the average lies in `1..5`, the rate answers 200 and the
counselor's row carries that average. -/
theorem average_well_defined (caller : Caller) (id : Nat) (req : RateReq) (σ : Store)
    (session : ChatSession) (cid : Nat) (counselor : Counselor)
    (hfind : findSession σ id caller.userId = some session)
    (hclosed : session.status = .closed) (hv : validRate req = true)
    (hcid : session.counselorId = some cid)
    (hk : findCounselorByPk σ cid = some counselor) :
    req.rating ∈ allRatings (rateSession caller id req σ).2.sessions cid ∧
    (allRatings (rateSession caller id req σ).2.sessions cid).length ≠ 0 ∧
    (RatingsInRange σ.sessions →
      1 ≤ averageRating (allRatings (rateSession caller id req σ).2.sessions cid) ∧
      averageRating (allRatings (rateSession caller id req σ).2.sessions cid) ≤ 5 ∧
      (rateSession caller id req σ).1.status = 200 ∧
      ∃ c' ∈ (rateSession caller id req σ).2.counselors, c'.id = cid ∧
        c'.rating =
          averageRating (allRatings (rateSession caller id req σ).2.sessions cid)) := by
  have hsess := rateSession_closed_sessions hfind hclosed hv
  have hmem := (findSession_mem hfind).1
  have hin : req.rating ∈ allRatings (rateSession caller id req σ).2.sessions cid := by
    rw [hsess]
    unfold allRatings
    rw [List.mem_filterMap]
    refine ⟨setRating req session, mem_updateSessions.mpr ⟨session, hmem, by simp⟩, ?_⟩
    simp [setRating, hcid]
  refine ⟨hin, ?_, ?_⟩
  · intro hlen
    rw [List.length_eq_zero] at hlen
    rw [hlen] at hin
    cases hin
  · intro hdata
    have hb := allRatings_after_update hmem hcid hv hdata
    have havg := averageRating_bounds _ hb.1 hb.2
    have hresp := rateSession_ok hfind hclosed hv hdata
    have hok : (rateSession caller id req σ).1.status = 200 := by rw [hresp]; rfl
    rw [hsess]
    refine ⟨havg.1, havg.2, hok, ?_⟩
    have h0 : (0 : ℚ) ≤ averageRating
        (allRatings (updateSessions (setRating req) session.id σ.sessions) cid) :=
      le_trans (by norm_num) havg.1
    rw [rateSession_of_closed_some hfind hclosed hv hcid hk, if_pos ⟨h0, havg.2⟩]
    have hkid := findCounselorByPk_some hk
    have hkm : counselor ∈ σ.counselors := by
      unfold findCounselorByPk at hk
      exact List.mem_of_find?_eq_some hk
    refine ⟨{ counselor with rating := averageRating (allRatings
      (updateSessions (setRating req) session.id σ.sessions) cid) }, ?_, hkid, rfl⟩
    exact mem_updateCounselors.mpr ⟨counselor, hkm, by rw [if_pos hkid]⟩

/-- C27 at a concrete store: user 1 rates session 10 of counselor 7 with 4;
counselor 7 also has a session rated 5. -/
theorem average_well_defined_witness :
    (allRatings (rateSession alice 10 { rating := 4, feedback := none }
      ratingStore).2.sessions 7).length ≠ 0 :=
  (average_well_defined alice 10 { rating := 4, feedback := none } ratingStore
    closedSession 7 { sampleCounselor 7 2 .available with rating := 5 }
    (by decide) rfl (by decide) rfl (by decide)).2.1

/-! ## The matching order -/

theorem updateCounselors_self (id : Nat) (cs : List Counselor) :
    updateCounselors (fun c => c) id cs = cs := by
  simp [updateCounselors]

/-- Every request rewrites counselor rows without touching their match key. -/
theorem step_counselors_shape (env : Env) (caller : Caller) (op : Op) (σ : Store) :
    ∃ (f : Counselor → Counselor) (id : Nat), (∀ c, (f c).matchKey = c.matchKey) ∧
      (step env caller op σ).2.counselors = updateCounselors f id σ.counselors := by
  have hsame : ∀ τ : Store, τ.counselors = σ.counselors →
      ∃ (f : Counselor → Counselor) (id : Nat), (∀ c, (f c).matchKey = c.matchKey) ∧
        τ.counselors = updateCounselors f id σ.counselors :=
    fun τ hτ => ⟨fun c => c, 0, fun _ => rfl, by rw [hτ, updateCounselors_self]⟩
  cases op with
  | createSession req =>
    rcases createSession_cases env caller req σ with hs | ⟨c, _, heq⟩ | ⟨_, heq⟩
    · exact hsame _ (by rw [show step env caller (.createSession req) σ =
        createSession env caller req σ from rfl, hs])
    · exact ⟨fun k => { k with status := .busy }, c.id, fun _ => rfl,
        by rw [show step env caller (.createSession req) σ =
          createSession env caller req σ from rfl, heq]⟩
    · exact hsame _ (by rw [show step env caller (.createSession req) σ =
        createSession env caller req σ from rfl, heq])
  | getMessages id q =>
    exact hsame _ (by rw [show step env caller (.getMessages id q) σ =
      getMessages caller id q σ from rfl, getMessages_store])
  | sendMessage id req =>
    rcases sendMessage_cases env caller id req σ with hs | ⟨_, _, _, heq⟩
    · exact hsame _ (by rw [show step env caller (.sendMessage id req) σ =
        sendMessage env caller id req σ from rfl, hs])
    · exact hsame _ (by rw [show step env caller (.sendMessage id req) σ =
        sendMessage env caller id req σ from rfl, heq])
  | rateSession id req =>
    rcases rateSession_counselors caller id req σ with hs | ⟨q, cid, heq⟩
    · exact hsame _ hs
    · exact ⟨fun c => { c with rating := q }, cid, fun _ => rfl, heq⟩
  | endSession id =>
    show ∃ (f : Counselor → Counselor) (id' : Nat), (∀ c, (f c).matchKey = c.matchKey) ∧
      (endSession env caller id σ).2.counselors = updateCounselors f id' σ.counselors
    cases hfind : findSession σ id caller.userId with
    | none => exact hsame _ (by simp [endSession, hfind])
    | some session =>
      by_cases hclosed : session.status = .closed
      · exact hsame _ (by rw [endSession_of_closed hfind hclosed])
      · rw [endSession_of_open hfind hclosed]
        cases hcid : session.counselorId with
        | none => exact hsame _ rfl
        | some cid => exact ⟨fun c => { c with status := .available }, cid, fun _ => rfl, rfl⟩

theorem matchKey_step (env : Env) (caller : Caller) (op : Op) (σ : Store) :
    (step env caller op σ).2.counselors.map Counselor.matchKey =
      σ.counselors.map Counselor.matchKey := by
  obtain ⟨f, id, hf, heq⟩ := step_counselors_shape env caller op σ
  rw [heq]
  unfold updateCounselors
  rw [List.map_map]
  congr 1
  funext c
  simp only [Function.comp]
  split
  · exact hf c
  · rfl

/-- C28: no sequence of chat requests changes the identity, `totalSessions`,
`isOnline` or `isActive` of a counselor row: in every reachable store the
counselor table carries the same match keys, row by row, as at the start, and
the counselors sorted by `totalSessions`, the order of the matcher, are the
same counselors in the same order. -/
theorem matching_order_invariant (σ₀ σ : Store) (hr : Reachable σ₀ σ) :
    σ.counselors.map (fun c => (c.id, c.totalSessions, c.isOnline, c.isActive)) =
      σ₀.counselors.map (fun c => (c.id, c.totalSessions, c.isOnline, c.isActive)) ∧
    (∀ (i : Nat) (c : Counselor), σ₀.counselors[i]? = some c →
      ∃ c', σ.counselors[i]? = some c' ∧ c'.id = c.id ∧
        c'.totalSessions = c.totalSessions ∧ c'.isOnline = c.isOnline ∧
        c'.isActive = c.isActive) ∧
    (σ.counselors.insertionSort (fun a b => a.totalSessions ≤ b.totalSessions)).map
        (fun c => (c.id, c.totalSessions)) =
      (σ₀.counselors.insertionSort (fun a b => a.totalSessions ≤ b.totalSessions)).map
        (fun c => (c.id, c.totalSessions)) := by
  have hkey : σ.counselors.map Counselor.matchKey = σ₀.counselors.map Counselor.matchKey := by
    induction hr with
    | start => rfl
    | next env caller op _ ih => rw [matchKey_step, ih]
  refine ⟨hkey, ?_, ?_⟩
  · intro i c hc
    have hi := congrArg (fun l => l[i]?) hkey
    simp only [List.getElem?_map, hc, Option.map_some'] at hi
    cases hc' : σ.counselors[i]? with
    | none => simp [hc'] at hi
    | some c' =>
      simp only [hc', Option.map_some', Option.some.injEq, Counselor.matchKey,
        Prod.mk.injEq] at hi
      exact ⟨c', rfl, hi.1, hi.2.1, hi.2.2.1, hi.2.2.2⟩
  · have hsort : ∀ cs : List Counselor,
        (cs.insertionSort (fun a b => a.totalSessions ≤ b.totalSessions)).map
          (fun c => (c.id, c.totalSessions)) =
        ((cs.map Counselor.matchKey).insertionSort (fun a b => a.2.1 ≤ b.2.1)).map
          (fun k => (k.1, k.2.1)) := by
      intro cs
      rw [← List.map_insertionSort (fun a b : Counselor => a.totalSessions ≤ b.totalSessions)
        (fun a b : Nat × Int × Bool × Bool => a.2.1 ≤ b.2.1) Counselor.matchKey cs
        (fun a _ b _ => Iff.rfl), List.map_map]
      rfl
    rw [hsort, hsort, hkey]

/-- C28 at a concrete run: from `activeStore`, user 2 creates a session and
user 1 ends session 10. -/
theorem matching_order_invariant_witness :
    (step sampleEnv alice (.endSession 10)
      (step sampleEnv bob (.createSession emptyCreateReq) activeStore).2).2.counselors.map
        (fun c => (c.id, c.totalSessions, c.isOnline, c.isActive)) =
      activeStore.counselors.map
        (fun c => (c.id, c.totalSessions, c.isOnline, c.isActive)) :=
  (matching_order_invariant activeStore _
    (Reachable.next sampleEnv alice (.endSession 10)
      (Reachable.next sampleEnv bob (.createSession emptyCreateReq) Reachable.start))).1

/-! ## Ratings only on closed sessions -/

theorem map_id_updateSessions {f : ChatSession → ChatSession}
    (hf : ∀ s, (f s).id = s.id) (sid : Nat) (ss : List ChatSession) :
    (updateSessions f sid ss).map (fun s => s.id) = ss.map (fun s => s.id) := by
  unfold updateSessions
  rw [List.map_map]
  congr 1
  funext s
  simp only [Function.comp]
  split
  · exact hf s
  · rfl

theorem nodup_updateSessions {f : ChatSession → ChatSession} {sid : Nat}
    {ss : List ChatSession} (hf : ∀ s, (f s).id = s.id)
    (h : (ss.map (fun s => s.id)).Nodup) :
    ((updateSessions f sid ss).map (fun s => s.id)).Nodup := by
  rw [map_id_updateSessions hf]
  exact h

/-- The session table after a rate: unchanged, or the rows with the id of a
closed session of the caller carry the new rating, which is in `1..5`. -/
theorem rateSession_sessions_cases (caller : Caller) (id : Nat) (req : RateReq)
    (σ : Store) :
    (rateSession caller id req σ).2.sessions = σ.sessions ∨
    ∃ session ∈ σ.sessions, session.status = .closed ∧
      1 ≤ req.rating ∧ req.rating ≤ 5 ∧
      (rateSession caller id req σ).2.sessions =
        updateSessions (setRating req) session.id σ.sessions := by
  by_cases hv : validRate req = true
  · cases hfind : findSession σ id caller.userId with
    | none =>
      left
      simp [rateSession, hv, hfind]
    | some session =>
      by_cases hclosed : session.status = .closed
      · right
        have hr : 1 ≤ req.rating ∧ req.rating ≤ 5 := by
          unfold validRate at hv
          simp only [Bool.and_eq_true, decide_eq_true_eq] at hv
          exact ⟨hv.1.1, hv.1.2⟩
        exact ⟨session, (findSession_mem hfind).1, hclosed, hr.1, hr.2,
          rateSession_closed_sessions hfind hclosed hv⟩
      · left
        rcases rateSession_of_open req hfind hclosed with he | he <;> rw [he]
  · left
    simp [rateSession, hv]

/-- Every request, with a fresh id for a created session, preserves the
primary key of the session table and the condition on rated sessions. -/
theorem ratedClosed_step (env : Env) (caller : Caller) (op : Op) (σ : Store)
    (hfresh : ∀ req, op = .createSession req → ∀ s ∈ σ.sessions, s.id ≠ env.newSessionId)
    (hpk : (σ.sessions.map (fun s => s.id)).Nodup) (h : RatedClosed σ) :
    ((step env caller op σ).2.sessions.map (fun s => s.id)).Nodup ∧
    RatedClosed (step env caller op σ).2 := by
  have hsame : ∀ τ : Store, τ.sessions = σ.sessions →
      (τ.sessions.map (fun s => s.id)).Nodup ∧ RatedClosed τ := by
    intro τ hτ
    unfold RatedClosed
    rw [hτ]
    exact ⟨hpk, h⟩
  cases op with
  | createSession req =>
    have hnew : ∀ cid : Option Nat, ∀ τ : Store,
        τ.sessions = σ.sessions ++ [newSession env caller.userId cid req] →
        (τ.sessions.map (fun s => s.id)).Nodup ∧ RatedClosed τ := by
      intro cid τ hτ
      unfold RatedClosed
      rw [hτ]
      constructor
      · rw [List.map_append, List.nodup_append]
        refine ⟨hpk, by simp, ?_⟩
        intro a ha hb
        simp only [List.map_cons, List.map_nil, List.mem_singleton] at hb
        obtain ⟨s, hs, hsa⟩ := List.mem_map.mp ha
        apply hfresh req rfl s hs
        rw [hsa, hb]
        rfl
      · intro s hs r hr
        rcases List.mem_append.mp hs with hold | hn
        · exact h s hold r hr
        · rw [List.mem_singleton] at hn
          rw [hn] at hr
          simp [newSession] at hr
    rcases createSession_cases env caller req σ with hs | ⟨c, _, heq⟩ | ⟨_, heq⟩
    · exact hsame _ (by rw [show step env caller (.createSession req) σ =
        createSession env caller req σ from rfl, hs])
    · exact hnew (some c.id) _ (by rw [show step env caller (.createSession req) σ =
        createSession env caller req σ from rfl, heq])
    · exact hnew none _ (by rw [show step env caller (.createSession req) σ =
        createSession env caller req σ from rfl, heq])
  | getMessages id q => exact hsame _ (getMessages_sessions caller id q σ)
  | sendMessage id req =>
    exact hsame _ (sendMessage_sessions env caller id req σ)
  | rateSession id req =>
    rcases rateSession_sessions_cases caller id req σ with hs | ⟨session, hmem, hclosed, h1, h5, hs⟩
    · exact hsame _ hs
    · unfold RatedClosed
      rw [show (step env caller (.rateSession id req) σ).2.sessions =
        updateSessions (setRating req) session.id σ.sessions from hs]
      refine ⟨nodup_updateSessions ?_ hpk, ?_⟩
      · exact fun _ => rfl
      intro t ht r hr
      obtain ⟨s, hs', hst⟩ := mem_updateSessions.mp ht
      by_cases hid : s.id = session.id
      · rw [if_pos hid] at hst
        subst hst
        have hss := eq_of_id_eq hpk hs' hmem hid
        simp only [setRating, Option.mem_def, Option.some.injEq] at hr
        rw [hss]
        exact ⟨hclosed, by omega, by omega⟩
      · rw [if_neg hid] at hst
        subst hst
        exact h s hs' r hr
  | endSession id =>
    rcases endSession_sessions env caller id σ with hs | ⟨session, _, _, hs⟩
    · exact hsame _ hs
    · unfold RatedClosed
      rw [show (step env caller (.endSession id) σ).2.sessions = _ from hs]
      refine ⟨nodup_updateSessions ?_ hpk, ?_⟩
      · exact fun _ => rfl
      intro t ht r hr
      obtain ⟨s, hs', hst⟩ := mem_updateSessions.mp ht
      by_cases hid : s.id = session.id
      · rw [if_pos hid] at hst
        subst hst
        exact ⟨rfl, (h s hs' r hr).2⟩
      · rw [if_neg hid] at hst
        subst hst
        exact h s hs' r hr

/-- C21: starting from a store with no rated session (and a session table
with a primary key, every created session drawing a fresh id), in every
reachable store each session with a non-null rating is closed and its rating
is an integer between 1 and 5; and in any store a rate request whose rating
is outside `1..5` answers 400 and changes nothing. -/
theorem rated_sessions_closed (σ₀ σ : Store)
    (hpk : (σ₀.sessions.map (fun s => s.id)).Nodup)
    (h₀ : ∀ s ∈ σ₀.sessions, s.rating = none)
    (hr : ReachableFresh σ₀ σ) :
    (∀ s ∈ σ.sessions, ∀ r : Int, s.rating = some r →
      s.status = .closed ∧ 1 ≤ r ∧ r ≤ 5) ∧
    (∀ (caller : Caller) (id : Nat) (req : RateReq) (τ : Store),
      req.rating < 1 ∨ 5 < req.rating →
        (rateSession caller id req τ).1.status = 400 ∧
        (rateSession caller id req τ).2 = τ) := by
  constructor
  · have hinv : (σ.sessions.map (fun s => s.id)).Nodup ∧ RatedClosed σ := by
      induction hr with
      | start =>
        refine ⟨hpk, ?_⟩
        intro s hs r hr
        rw [h₀ s hs] at hr
        cases hr
      | next env caller op _ hfresh ih => exact ratedClosed_step env caller op _ hfresh ih.1 ih.2
    intro s hs r hr
    exact hinv.2 s hs r (Option.mem_def.mpr hr)
  · intro caller id req τ hout
    have hv : validRate req = false := by
      unfold validRate
      rcases hout with h | h
      · have : decide (1 ≤ req.rating) = false := by simpa using h
        simp [this]
      · have : decide (req.rating ≤ 5) = false := by simpa using h
        simp [this]
    simp [rateSession, hv, Response.status]

/-- C21 at a concrete run: from `activeStore`, user 1 ends session 10 and
rates it with 4. -/
theorem rated_sessions_closed_witness :
    RatedClosed (step sampleEnv alice (.rateSession 10 { rating := 4, feedback := none })
      (step sampleEnv alice (.endSession 10) activeStore).2).2 :=
  have h := (rated_sessions_closed activeStore _ (by decide) (by decide)
    (ReachableFresh.next sampleEnv alice (.rateSession 10 { rating := 4, feedback := none })
      (ReachableFresh.next sampleEnv alice (.endSession 10) ReachableFresh.start
        (fun _ h => by cases h))
      (fun _ h => by cases h))).1
  fun s hs r hr => h s hs r (Option.mem_def.mp hr)

/-! ## The list of available counselors and the matcher -/

/-- C22: the list `GET /counselors/available` returns is what the matcher
chooses from. A valid `POST /sessions` of a caller without a waiting or active
session creates a session, and that session is assigned a counselor exactly
when the list is not empty; the assigned counselor is a row of the counselor
table whose summary is in the list, and every row in the list is one the
matcher may compare it with. -/
theorem available_list_is_matcher_pool (env : Env) (caller : Caller) (req : CreateReq)
    (σ : Store) (hv : validCreate req = true)
    (hopen : findOpenSession σ caller.userId = none) :
    (∃ session assigned,
      (createSession env caller req σ).1 = .sessionCreated session assigned ∧
      (assigned = true ↔ getAvailableCounselors σ ≠ []) ∧
      (session.counselorId ≠ none ↔ getAvailableCounselors σ ≠ []) ∧
      (∀ cid, session.counselorId = some cid →
        ∃ c ∈ σ.counselors, c.id = cid ∧ c.summary ∈ getAvailableCounselors σ)) ∧
    (∀ e, e ∈ getAvailableCounselors σ ↔
      ∃ c ∈ σ.counselors, c.isOnline = true ∧ c.status = .available ∧
        c.isActive = true ∧ c.summary = e) := by
  have hlist : ∀ e, e ∈ getAvailableCounselors σ ↔
      ∃ c ∈ σ.counselors, c.isOnline = true ∧ c.status = .available ∧
        c.isActive = true ∧ c.summary = e := by
    intro e
    unfold getAvailableCounselors availableCounselors
    rw [List.mem_map]
    constructor
    · rintro ⟨c, hc, hce⟩
      rw [List.mem_filter] at hc
      have he := hc.2
      simp only [Counselor.isEligible, Bool.and_eq_true, beq_iff_eq] at he
      exact ⟨c, hc.1, he.1.1, he.1.2, he.2, hce⟩
    · rintro ⟨c, hc, h1, h2, h3, hce⟩
      exact ⟨c, List.mem_filter.mpr ⟨hc, by simp [Counselor.isEligible, h1, h2, h3]⟩, hce⟩
  refine ⟨?_, hlist⟩
  cases hc : findAvailableCounselor σ with
  | none =>
    have hnone := findAvailableCounselor_none_iff.mp hc
    have hnil : getAvailableCounselors σ = [] := by
      unfold getAvailableCounselors availableCounselors
      rw [List.map_eq_nil_iff, List.filter_eq_nil_iff]
      intro k hk
      rw [hnone k hk]
      simp
    rw [createSession_waiting hv hopen hc, hnil]
    refine ⟨_, false, rfl, by simp, by simp [newSession], ?_⟩
    intro cid hcid
    simp [newSession] at hcid
  | some c =>
    obtain ⟨hmem, h1, h2, h3⟩ := findAvailableCounselor_some hc
    have hin : c.summary ∈ getAvailableCounselors σ :=
      (hlist c.summary).mpr ⟨c, hmem, h1, h2, h3, rfl⟩
    have hne : getAvailableCounselors σ ≠ [] := List.ne_nil_of_mem hin
    rw [createSession_assigned hv hopen hc]
    refine ⟨_, true, rfl, by simp [hne], by simp [newSession, hne], ?_⟩
    intro cid hcid
    have : c.id = cid := by simpa [newSession] using hcid
    exact ⟨c, hmem, this, hin⟩

/-- C22 at a concrete store: user 2 creates a session in `activeStore`, where
the list of available counselors is counselor 8 alone. -/
theorem available_list_is_matcher_pool_witness :
    ∃ session assigned,
      (createSession sampleEnv bob emptyCreateReq activeStore).1 =
        .sessionCreated session assigned ∧
      (assigned = true ↔ getAvailableCounselors activeStore ≠ []) ∧
      (session.counselorId ≠ none ↔ getAvailableCounselors activeStore ≠ []) ∧
      (∀ cid, session.counselorId = some cid →
        ∃ c ∈ activeStore.counselors,
          c.id = cid ∧ c.summary ∈ getAvailableCounselors activeStore) :=
  (available_list_is_matcher_pool sampleEnv bob emptyCreateReq activeStore
    (by decide) (by decide)).1

/-! ## Pages of messages -/

/-- C23, the code at the failing input: session 10 of `activeStore` holds two
messages and user 1, its owner, fetches with `limit = 1`. The answer is
500 "Internal server error" and carries no message; and no fetch, for any
caller, session, limit, cursor and store, answers with a list of messages. -/
theorem fetch_returns_no_page :
    (activeStore.messages.filter (fun m => m.sessionId = 10)).length = 2 ∧
    (getMessages alice 10 { limit := some 1, before := none } activeStore).1 =
      .error 500 "Internal server error" ∧
    ∀ (caller : Caller) (id : Nat) (q : MessagesQuery) (σ : Store)
      (msgs : List ChatMessage) (sid : Nat) (st : SessionStatus) (cid : Option Nat),
      (getMessages caller id q σ).1 ≠ .messages msgs sid st cid :=
  ⟨by decide, by decide, fun caller id q σ msgs sid st cid h =>
    getMessages_status caller id q σ (by rw [h]; rfl)⟩

/-! ## Status and counselor of a session -/

/-- What one request does to the rows of the session table: a stored row
keeps its id, owner and counselor, and its status unless an end closes it; a
new row comes from `POST /sessions` and is active with a counselor or waiting
without one. -/
theorem step_session_rows (env : Env) (caller : Caller) (op : Op) (σ : Store) :
    (∀ (i : Nat) (s : ChatSession), σ.sessions[i]? = some s →
      ∃ s', (step env caller op σ).2.sessions[i]? = some s' ∧
        s'.id = s.id ∧ s'.userId = s.userId ∧ s'.counselorId = s.counselorId ∧
        (s'.status = s.status ∨ (s'.status = .closed ∧ ∃ id, op = .endSession id))) ∧
    (∀ (j : Nat) (s' : ChatSession), (step env caller op σ).2.sessions[j]? = some s' →
      σ.sessions.length ≤ j →
        (∃ req, op = .createSession req) ∧
        ((s'.status = .active ∧ s'.counselorId ≠ none) ∨
          (s'.status = .waiting ∧ s'.counselorId = none))) := by
  have hsame : ∀ ss : List ChatSession, ss = σ.sessions →
      (∀ (i : Nat) (s : ChatSession), σ.sessions[i]? = some s →
        ∃ s', ss[i]? = some s' ∧
          s'.id = s.id ∧ s'.userId = s.userId ∧ s'.counselorId = s.counselorId ∧
          (s'.status = s.status ∨ (s'.status = .closed ∧ ∃ id, op = .endSession id))) ∧
      (∀ (j : Nat) (s' : ChatSession), ss[j]? = some s' → σ.sessions.length ≤ j →
        (∃ req, op = .createSession req) ∧
        ((s'.status = .active ∧ s'.counselorId ≠ none) ∨
          (s'.status = .waiting ∧ s'.counselorId = none))) := by
    intro ss hss
    rw [hss]
    refine ⟨fun i s hs => ⟨s, hs, rfl, rfl, rfl, Or.inl rfl⟩, ?_⟩
    intro j s' hj hle
    have := (List.getElem?_eq_some.mp hj).1
    omega
  have hupd : ∀ (f : ChatSession → ChatSession) (sid : Nat) (ss : List ChatSession),
      ss = updateSessions f sid σ.sessions →
      (∀ s, (f s).id = s.id ∧ (f s).userId = s.userId ∧ (f s).counselorId = s.counselorId ∧
        ((f s).status = s.status ∨ ((f s).status = .closed ∧ ∃ id, op = .endSession id))) →
      (∀ (i : Nat) (s : ChatSession), σ.sessions[i]? = some s →
        ∃ s', ss[i]? = some s' ∧
          s'.id = s.id ∧ s'.userId = s.userId ∧ s'.counselorId = s.counselorId ∧
          (s'.status = s.status ∨ (s'.status = .closed ∧ ∃ id, op = .endSession id))) ∧
      (∀ (j : Nat) (s' : ChatSession), ss[j]? = some s' → σ.sessions.length ≤ j →
        (∃ req, op = .createSession req) ∧
        ((s'.status = .active ∧ s'.counselorId ≠ none) ∨
          (s'.status = .waiting ∧ s'.counselorId = none))) := by
    intro f sid ss hss hf
    rw [hss]
    constructor
    · intro i s hs
      refine ⟨if s.id = sid then f s else s, ?_, ?_⟩
      · rw [getElem?_updateSessions, hs, Option.map_some']
      · split
        · exact hf s
        · exact ⟨rfl, rfl, rfl, Or.inl rfl⟩
    · intro j s' hj hle
      have := (List.getElem?_eq_some.mp hj).1
      simp only [updateSessions, List.length_map] at this
      omega
  cases op with
  | createSession req =>
    have hnew : ∀ cid : Option Nat, ∀ ss : List ChatSession,
        ss = σ.sessions ++ [newSession env caller.userId cid req] →
        (∀ (i : Nat) (s : ChatSession), σ.sessions[i]? = some s →
          ∃ s', ss[i]? = some s' ∧
            s'.id = s.id ∧ s'.userId = s.userId ∧ s'.counselorId = s.counselorId ∧
            (s'.status = s.status ∨
              (s'.status = .closed ∧ ∃ id, Op.createSession req = .endSession id))) ∧
        (∀ (j : Nat) (s' : ChatSession), ss[j]? = some s' → σ.sessions.length ≤ j →
          (∃ req', Op.createSession req = .createSession req') ∧
          ((s'.status = .active ∧ s'.counselorId ≠ none) ∨
            (s'.status = .waiting ∧ s'.counselorId = none))) := by
      intro cid ss hss
      rw [hss]
      constructor
      · intro i s hs
        have hi := (List.getElem?_eq_some.mp hs).1
        exact ⟨s, by rw [List.getElem?_append_left hi, hs], rfl, rfl, rfl, Or.inl rfl⟩
      · intro j s' hj hle
        rw [List.getElem?_append_right hle] at hj
        have hs' : s' = newSession env caller.userId cid req := by
          cases hjj : j - σ.sessions.length with
          | zero =>
            rw [hjj] at hj
            simpa using hj.symm
          | succ k =>
            rw [hjj] at hj
            simp at hj
        refine ⟨⟨req, rfl⟩, ?_⟩
        rw [hs']
        cases cid with
        | none => right; exact ⟨rfl, rfl⟩
        | some c => left; exact ⟨rfl, by simp [newSession]⟩
    rcases createSession_cases env caller req σ with hs | ⟨c, _, heq⟩ | ⟨_, heq⟩
    · exact hsame _ (by rw [show step env caller (.createSession req) σ =
        createSession env caller req σ from rfl, hs])
    · exact hnew (some c.id) _ (by rw [show step env caller (.createSession req) σ =
        createSession env caller req σ from rfl, heq])
    · exact hnew none _ (by rw [show step env caller (.createSession req) σ =
        createSession env caller req σ from rfl, heq])
  | getMessages id q => exact hsame _ (getMessages_sessions caller id q σ)
  | sendMessage id req =>
    exact hsame _ (sendMessage_sessions env caller id req σ)
  | rateSession id req =>
    rcases rateSession_sessions caller id req σ with hs | ⟨sid, hs⟩
    · exact hsame _ hs
    · exact hupd _ sid _ hs (fun s => ⟨rfl, rfl, rfl, Or.inl rfl⟩)
  | endSession id =>
    rcases endSession_sessions env caller id σ with hs | ⟨session, _, _, hs⟩
    · exact hsame _ hs
    · exact hupd _ session.id _ hs (fun s => ⟨rfl, rfl, rfl, Or.inr ⟨rfl, id, rfl⟩⟩)

theorem rows_reachable {σ₀ σ : Store} (hr : Reachable σ₀ σ) (i : Nat) (s : ChatSession)
    (hs : σ₀.sessions[i]? = some s) :
    ∃ s', σ.sessions[i]? = some s' ∧
      s'.id = s.id ∧ s'.userId = s.userId ∧ s'.counselorId = s.counselorId ∧
      (s'.status = s.status ∨ s'.status = .closed) := by
  induction hr with
  | start => exact ⟨s, hs, rfl, rfl, rfl, Or.inl rfl⟩
  | next env caller op _ ih =>
    obtain ⟨t, ht, hid, hu, hc, hst⟩ := ih
    obtain ⟨t', ht', hid', hu', hc', hst'⟩ := (step_session_rows env caller op _).1 i t ht
    refine ⟨t', ht', hid'.trans hid, hu'.trans hu, hc'.trans hc, ?_⟩
    rcases hst' with h | ⟨h, _⟩
    · rw [h]
      exact hst
    · exact Or.inr h

theorem new_rows_reachable {σ₀ σ : Store} (hr : Reachable σ₀ σ) (j : Nat)
    (s' : ChatSession) (hj : σ.sessions[j]? = some s') (hle : σ₀.sessions.length ≤ j) :
    s'.status ≠ .escalated ∧ (s'.status = .waiting → s'.counselorId = none) := by
  induction hr generalizing s' with
  | start =>
    have := (List.getElem?_eq_some.mp hj).1
    omega
  | @next τ env caller op _ ih =>
    by_cases hlt : j < τ.sessions.length
    · obtain ⟨t, ht⟩ : ∃ t, τ.sessions[j]? = some t :=
        ⟨τ.sessions[j], List.getElem?_eq_getElem hlt⟩
      obtain ⟨t', ht', _, _, hc', hst'⟩ := (step_session_rows env caller op τ).1 j t ht
      rw [hj] at ht'
      simp only [Option.some.injEq] at ht'
      subst ht'
      obtain ⟨h1, h2⟩ := ih t ht
      rcases hst' with h | ⟨h, _⟩
      · rw [h, hc']
        exact ⟨h1, h2⟩
      · rw [h]
        exact ⟨by simp, by simp⟩
    · obtain ⟨_, h⟩ := (step_session_rows env caller op τ).2 j s' hj (by omega)
      rcases h with ⟨h, _⟩ | ⟨h, hc⟩
      · rw [h]
        exact ⟨by simp, by simp⟩
      · rw [h]
        exact ⟨by simp, fun _ => hc⟩

/-- C26: the status and the counselor of a session are written by no request
after its creation, except that an end closes it. In every reachable store a
row of the starting store has the counselor it had and the status it had or
`closed`; one request changes the status of a row only when it is an end, and
then to `closed`; a row created on the way is never escalated, and waiting
only without a counselor; and a send to a session that is waiting answers 400
and writes nothing. So a waiting session never becomes active and never gets
a counselor, and no request escalates a session. -/
theorem session_assignment_is_final (σ₀ σ : Store) (hr : Reachable σ₀ σ)
    (i : Nat) (s : ChatSession) (hs : σ₀.sessions[i]? = some s) :
    (∃ s', σ.sessions[i]? = some s' ∧
      s'.id = s.id ∧ s'.userId = s.userId ∧ s'.counselorId = s.counselorId ∧
      (s'.status = s.status ∨ s'.status = .closed) ∧
      (s.status = .waiting → s'.status ≠ .active) ∧
      (s.status ≠ .escalated → s'.status ≠ .escalated)) ∧
    (∀ (env : Env) (caller : Caller) (op : Op) (τ : Store) (j : Nat) (t : ChatSession),
      τ.sessions[j]? = some t →
        ∃ t', (step env caller op τ).2.sessions[j]? = some t' ∧
          t'.counselorId = t.counselorId ∧
          (t'.status = t.status ∨ (t'.status = .closed ∧ ∃ id, op = .endSession id))) ∧
    (∀ (j : Nat) (s' : ChatSession), σ.sessions[j]? = some s' →
      σ₀.sessions.length ≤ j →
        s'.status ≠ .escalated ∧ (s'.status = .waiting → s'.counselorId = none)) ∧
    (∀ (env : Env) (caller : Caller) (id : Nat) (req : SendReq) (t : ChatSession),
      findSession σ id caller.userId = some t → t.status = .waiting →
        (sendMessage env caller id req σ).1.status = 400 ∧
        (sendMessage env caller id req σ).2 = σ) := by
  refine ⟨?_, ?_, ?_, ?_⟩
  · obtain ⟨s', hs', hid, hu, hc, hst⟩ := rows_reachable hr i s hs
    refine ⟨s', hs', hid, hu, hc, hst, ?_, ?_⟩
    · intro hw
      rcases hst with h | h <;> rw [h] <;> simp [hw]
    · intro he
      rcases hst with h | h
      · rw [h]
        exact he
      · rw [h]
        simp
  · intro env caller op τ j t ht
    obtain ⟨t', ht', _, _, hc, hst⟩ := (step_session_rows env caller op τ).1 j t ht
    exact ⟨t', ht', hc, hst⟩
  · intro j s' hj hle
    exact new_rows_reachable hr j s' hj hle
  · intro env caller id req t hfind hw
    by_cases hv : validSend env req = true
    · have hne : t.status ≠ .active := by rw [hw]; simp
      simp [sendMessage, hv, hfind, hne, Response.status]
    · simp [sendMessage, hv, Response.status]

/-- C26 at a concrete run: user 1 has the waiting session 30; user 2 creates
a session and user 1 tries to send; session 30 is waiting without a counselor
afterwards. -/
theorem session_assignment_is_final_witness :
    ∃ s', (step sampleEnv alice (.sendMessage 30 helloReq)
        (step sampleEnv bob (.createSession emptyCreateReq) waitingStore).2).2.sessions[0]? =
        some s' ∧
      s'.id = 30 ∧ s'.userId = 1 ∧ s'.counselorId = none ∧
      (s'.status = .waiting ∨ s'.status = .closed) ∧
      s'.status ≠ .active ∧ s'.status ≠ .escalated :=
  match (session_assignment_is_final waitingStore _
    (Reachable.next sampleEnv alice (.sendMessage 30 helloReq)
      (Reachable.next sampleEnv bob (.createSession emptyCreateReq) Reachable.start))
    0 (sampleSession 30 1 none .waiting) rfl).1 with
  | ⟨s', h1, h2, h3, h4, h5, h6, h7⟩ => ⟨s', h1, h2, h3, h4, h5, h6 rfl, h7 (by decide)⟩

/-! ## The streak analysis -/

theorem streakLoop_currentStreak (entries : List MoodEntry) (i : Nat) (st : StreakState) :
    (streakLoop entries (i + 1) st).currentStreak = st.currentStreak := by
  induction entries generalizing i st with
  | nil => rfl
  | cons e es ih =>
    simp only [streakLoop]
    rw [ih]
    unfold streakStep
    split
    · simp
    · rfl

/-- The loop assigns `currentStreak` at index 0 only: the value reported is
1 when the most recent mood is at least 3, and 0 otherwise, so the streak
insight is never pushed. -/
theorem streakAnalysis_currentStreak (entries : List MoodEntry) :
    (streakAnalysis entries).currentStreak ≤ 1 ∧
    (streakAnalysis entries).currentStreak = min 1 (leadingStreak entries) ∧
    streakInsightEmitted entries = false := by
  have h : (streakAnalysis entries).currentStreak = min 1 (leadingStreak entries) := by
    unfold streakAnalysis leadingStreak
    cases entries with
    | nil => rfl
    | cons e es =>
      simp only [streakLoop]
      rw [streakLoop_currentStreak]
      unfold streakStep
      by_cases hm : 3 ≤ e.mood
      · simp [hm, List.takeWhile_cons]
      · simp [hm, List.takeWhile_cons]
  refine ⟨by rw [h]; exact Nat.min_le_left _ _, h, ?_⟩
  unfold streakInsightEmitted
  rw [h]
  have : min 1 (leadingStreak entries) ≤ 1 := Nat.min_le_left _ _
  simp only [decide_eq_false_iff_not]
  omega

/-- C30 fails on the code: for seven entries with mood 4, most recent first,
the number of consecutive entries with mood at least 3 is 7, but the streak
analysis reports a current streak of 1 and the 'Mood Tracking Streak' insight
is not pushed. -/
theorem streak_seven_good_days :
    leadingStreak sevenGoodDays = 7 ∧
    (streakAnalysis sevenGoodDays).currentStreak = 1 ∧
    (streakAnalysis sevenGoodDays).maxStreak = 7 ∧
    streakInsightEmitted sevenGoodDays = false := by
  decide

/-! ## Two session creations at once -/

/-- The handler cut at its `await` points and run without interruption is
the handler of `createSession`. -/
theorem createRun_eq_createSession (env : Env) (caller : Caller) (req : CreateReq)
    (σ : Store) :
    (createRun 5 { env := env, caller := caller, req := req, phase := .start } σ).1.phase =
      .done (createSession env caller req σ).1 ∧
    (createRun 5 { env := env, caller := caller, req := req, phase := .start } σ).2 =
      (createSession env caller req σ).2 := by
  by_cases hv : validCreate req = true
  · cases hopen : findOpenSession σ caller.userId with
    | some existing =>
      rw [createSession_existing hv hopen]
      simp [createRun, createStep, hv, hopen]
    | none =>
      cases hc : findAvailableCounselor σ with
      | some c =>
        rw [createSession_assigned hv hopen hc]
        simp [createRun, createStep, hv, hopen, hc, newSession]
      | none =>
        rw [createSession_waiting hv hopen hc]
        simp [createRun, createStep, hv, hopen, hc, newSession]
  · have hv' : validCreate req = false := by simpa using hv
    rw [createSession_invalid hv']
    simp [createRun, createStep, hv']

/-- The sequential schedule serves the first request, then the second. -/
theorem runTwo_sequential (a b : CreateTask) (σ : Store) :
    runTwo sequentialSchedule a b σ =
      ((createRun 5 a σ).1, (createRun 5 b (createRun 5 a σ).2).1,
        (createRun 5 b (createRun 5 a σ).2).2) := rfl

/-- Two session creations served one after the other are never assigned the
same counselor. -/
theorem sequential_creations_differ (env₁ env₂ : Env) (caller₁ caller₂ : Caller)
    (req₁ req₂ : CreateReq) (σ : Store) (s₁ s₂ : ChatSession) (a₁ a₂ : Bool) (cid : Nat)
    (h₁ : (createSession env₁ caller₁ req₁ σ).1 = .sessionCreated s₁ a₁)
    (h₂ : (createSession env₂ caller₂ req₂ (createSession env₁ caller₁ req₁ σ).2).1 =
      .sessionCreated s₂ a₂)
    (hc : s₁.counselorId = some cid) : s₂.counselorId ≠ some cid := by
  cases a₁ with
  | false =>
    obtain ⟨_, hs, _⟩ := createSession_created_waiting h₁
    rw [hs] at hc
    simp [newSession] at hc
  | true =>
    obtain ⟨c, _, hs, hstore⟩ := createSession_created_assigned h₁
    have hcid : c.id = cid := by
      rw [hs] at hc
      simpa [newSession] using hc
    cases a₂ with
    | false =>
      obtain ⟨_, hs₂, _⟩ := createSession_created_waiting h₂
      rw [hs₂]
      simp [newSession]
    | true =>
      obtain ⟨k, hk, hs₂, _⟩ := createSession_created_assigned h₂
      obtain ⟨hkm, _, hkav, _⟩ := findAvailableCounselor_some hk
      rw [hstore] at hkm
      obtain ⟨k₀, _, hk₀⟩ := mem_updateCounselors.mp hkm
      intro hsame
      have hkid : k.id = cid := by
        rw [hs₂] at hsame
        simpa [newSession] using hsame
      by_cases hid : k₀.id = c.id
      · rw [if_pos hid] at hk₀
        rw [← hk₀] at hkav
        simp at hkav
      · rw [if_neg hid] at hk₀
        rw [hk₀] at hid
        exact hid (hkid.trans hcid.symm)

/-- C25, as stated, fails: counselor 8 is the only eligible counselor of
`activeStore`. The requests of user 2 and user 3 alternate at their database
calls: both read counselor 8 as available before either marks it busy, and
both created sessions are assigned counselor 8. -/
theorem concurrent_creations_counterexample :
    (activeStore.counselors.filter Counselor.isEligible).map (fun c => c.id) = [8] ∧
    (runTwo alternatingSchedule bobTask carolTask activeStore).1.phase =
      .done (.sessionCreated (newSession sampleEnv 2 (some 8) emptyCreateReq) true) ∧
    (runTwo alternatingSchedule bobTask carolTask activeStore).2.1.phase =
      .done (.sessionCreated (newSession sampleEnv₂ 3 (some 8) emptyCreateReq) true) ∧
    (runTwo alternatingSchedule bobTask carolTask activeStore).2.2.sessions.map
      (fun s => (s.userId, s.status, s.counselorId)) =
      [(1, .active, some 7), (2, .active, some 8), (3, .active, some 8)] := by
  decide

/-- C25, amended: when the two session-creation requests are served one after
the other (the schedule runs the first handler through all its database calls
before the second starts), the run is the two `createSession` calls in
sequence, and at most one of the two created sessions is assigned a given
counselor. -/
theorem sequential_creations_atomic (a b : CreateTask) (σ : Store)
    (s₁ s₂ : ChatSession) (a₁ a₂ : Bool) (cid : Nat)
    (ha : a.phase = .start) (hb : b.phase = .start)
    (h₁ : (runTwo sequentialSchedule a b σ).1.phase = .done (.sessionCreated s₁ a₁))
    (h₂ : (runTwo sequentialSchedule a b σ).2.1.phase = .done (.sessionCreated s₂ a₂))
    (hc : s₁.counselorId = some cid) :
    s₂.counselorId ≠ some cid ∧
    (runTwo sequentialSchedule a b σ).2.2 =
      (createSession b.env b.caller b.req (createSession a.env a.caller a.req σ).2).2 := by
  have hae : a = { env := a.env, caller := a.caller, req := a.req, phase := .start } := by
    cases a
    simp only at ha
    rw [ha]
  have hbe : b = { env := b.env, caller := b.caller, req := b.req, phase := .start } := by
    cases b
    simp only at hb
    rw [hb]
  have hA := createRun_eq_createSession a.env a.caller a.req σ
  have hB := createRun_eq_createSession b.env b.caller b.req
    (createSession a.env a.caller a.req σ).2
  rw [← hae] at hA
  rw [← hbe] at hB
  rw [runTwo_sequential] at h₁ h₂ ⊢
  simp only at h₁ h₂ ⊢
  rw [hA.1] at h₁
  rw [hA.2, hB.1] at h₂
  rw [hA.2, hB.2]
  simp only [CreatePhase.done.injEq] at h₁ h₂
  exact ⟨sequential_creations_differ _ _ _ _ _ _ σ s₁ s₂ a₁ a₂ cid h₁ h₂ hc, rfl⟩

/-- C25, amended, at a concrete store: the requests of user 2 and user 3 on
`activeStore`, one after the other; user 2 gets counselor 8 and user 3 does
not. -/
theorem sequential_creations_atomic_witness :
    (newSession sampleEnv₂ 3 none emptyCreateReq).counselorId ≠ some 8 ∧
    (runTwo sequentialSchedule bobTask carolTask activeStore).2.2 =
      (createSession sampleEnv₂ carol emptyCreateReq
        (createSession sampleEnv bob emptyCreateReq activeStore).2).2 :=
  sequential_creations_atomic bobTask carolTask activeStore
    (newSession sampleEnv 2 (some 8) emptyCreateReq)
    (newSession sampleEnv₂ 3 none emptyCreateReq) true false 8
    rfl rfl (by decide) (by decide) rfl

end MentalSpace
